import Mathlib

/-!
Verification of the WEATHER-VESSEL marine forecast core.

This file gives a shallow embedding, in Lean 4, of the core modules of the
repository: the fusion decision (src/wv/core/fusion.py), the provider
fallback manager (src/wv/providers/manager.py), the disk cache
(src/wv/utils/cache.py), quality control (src/marine_ops/core/qc.py), bias
correction (src/marine_ops/core/bias.py), the weighted ensemble
(src/marine_ops/core/ensemble.py) and the ERI rule engine
(src/marine_ops/eri/compute.py).  Floating-point numbers of the source are
embedded as exact rationals; Python round(x, n) is embedded as
round-half-even on x * 10 ^ n.
-/

namespace WeatherVessel

/-- Round-half-even of a rational to an integer, the tie-breaking used by
Python round(). -/
def roundHalfEven (q : ℚ) : ℤ :=
  if q - (⌊q⌋ : ℚ) < 1/2 then ⌊q⌋
  else if 1/2 < q - (⌊q⌋ : ℚ) then ⌊q⌋ + 1
  else if ⌊q⌋ % 2 = 0 then ⌊q⌋ else ⌊q⌋ + 1

/-- Embedding of Python round(x, 2). -/
def round2 (q : ℚ) : ℚ := (roundHalfEven (q * 100) : ℚ) / 100

/-- Embedding of Python round(x, 4). -/
def round4 (q : ℚ) : ℚ := (roundHalfEven (q * 10000) : ℚ) / 10000

/-! ## String helpers

Embeddings of the Python string operations used by the fusion module:
str.strip, str.casefold (on the ASCII alphabet used by the alert strings,
casefold agrees with lowercasing), str.startswith and substring
containment. -/

/-- Embedding of Python str.strip on a character list. -/
def stripChars (l : List Char) : List Char :=
  ((l.dropWhile Char.isWhitespace).reverse.dropWhile Char.isWhitespace).reverse

/-- Embedding of Python str.casefold for the ASCII alert vocabulary. -/
def caseFoldChars (l : List Char) : List Char := l.map Char.toLower

/-- Does the first list start with the second one, embedding str.startswith. -/
def startsWithChars : List Char → List Char → Bool
  | _, [] => true
  | [], _ :: _ => false
  | c :: cs, d :: ds => c == d && startsWithChars cs ds

/-- Does the first list contain the second as a contiguous sublist,
embedding the Python in operator on strings. -/
def containsChars : List Char → List Char → Bool
  | [], needle => needle.isEmpty
  | c :: cs, needle => startsWithChars (c :: cs) needle || containsChars cs needle

/-! ## Fusion decision (src/wv/core/fusion.py) -/

/-- Feet-to-meters factor FT_TO_M = 0.3048. -/
def FT_TO_M : ℚ := 3048 / 10000

/-- Minimum effective speed floor, 0.1 kt. -/
def MIN_SPEED_KT : ℚ := 1 / 10

/-- FusionCoefficients with the pydantic defaults alpha 0.85, beta 0.80,
wind_factor 0.06, wave_factor 0.60. -/
structure FusionCoefficients where
  alpha : ℚ
  beta : ℚ
  windFactor : ℚ
  waveFactor : ℚ
deriving DecidableEq

/-- Default coefficient values of the FusionCoefficients model. -/
def defaultCoefficients : FusionCoefficients :=
  ⟨85/100, 80/100, 6/100, 60/100⟩

/-- FusionInputs; the pydantic field constraints are captured by
FusionInputs.Valid below. -/
structure FusionInputs where
  combinedFt : ℚ
  windAdnoc : ℚ
  hsOnshoreFt : ℚ
  hsOffshoreFt : ℚ
  windAlbahar : ℚ
  alert : Option String
  offshoreWeight : ℚ
  distanceNm : ℚ
  plannedSpeedKt : ℚ
deriving DecidableEq

/-- The pydantic validation constraints on FusionInputs (ge=0 on heights
and winds, offshore_weight in the unit interval, positive distance and
speed). -/
def FusionInputs.Valid (i : FusionInputs) : Prop :=
  0 ≤ i.combinedFt ∧ 0 ≤ i.windAdnoc ∧ 0 ≤ i.hsOnshoreFt ∧
  0 ≤ i.hsOffshoreFt ∧ 0 ≤ i.windAlbahar ∧
  0 ≤ i.offshoreWeight ∧ i.offshoreWeight ≤ 1 ∧
  0 < i.distanceNm ∧ 0 < i.plannedSpeedKt

instance (i : FusionInputs) : Decidable i.Valid := by
  unfold FusionInputs.Valid
  infer_instance

/-- FusionResult; the model validator rounds hs_fused_m, wind_fused_kt and
eta_hours to two decimals. -/
structure FusionResult where
  hsFusedM : ℚ
  windFusedKt : ℚ
  decision : String
  etaHours : ℚ
  bufferMinutes : ℤ
deriving DecidableEq

/-- Normalised alert key: (alert or "").strip().casefold(). -/
def alertKey (alert : Option String) : List Char :=
  caseFoldChars (stripChars (alert.getD "").data)

/-- The literal _ALERT_GAMMA dictionary lookup with default 0.0. -/
def alertGammaTable (key : List Char) : ℚ :=
  if key = "".data then 0
  else if key = "rough at times westward".data then 15/100
  else 0

/-- Embedding of _alert_gamma. -/
def alertGamma (alert : Option String) : ℚ :=
  if startsWithChars (alertKey alert) "high seas".data then 30/100
  else if containsChars (alertKey alert) "rough at times".data then 15/100
  else alertGammaTable (alertKey alert)

/-- Embedding of _is_forced_no_go. -/
def isForcedNoGo (alert : Option String) : Bool :=
  startsWithChars (alertKey alert) "high seas".data ||
  startsWithChars (alertKey alert) "fog".data

/-- Local value hs_on_m of decide_and_eta. -/
def hsOnM (inputs : FusionInputs) : ℚ := inputs.hsOnshoreFt * FT_TO_M

/-- Local value hs_off_m of decide_and_eta. -/
def hsOffM (inputs : FusionInputs) : ℚ := inputs.hsOffshoreFt * FT_TO_M

/-- Local value hs_from_adnoc of decide_and_eta. -/
def hsFromAdnoc (inputs : FusionInputs) (coeffs : FusionCoefficients) : ℚ :=
  coeffs.alpha * (inputs.combinedFt * FT_TO_M)

/-- Local value hs_ncm of decide_and_eta. -/
def hsNcm (inputs : FusionInputs) : ℚ :=
  (1 - inputs.offshoreWeight) * hsOnM inputs + inputs.offshoreWeight * hsOffM inputs

/-- Local value hs_fused of decide_and_eta. -/
def hsFused (inputs : FusionInputs) (coeffs : FusionCoefficients) : ℚ :=
  max (hsNcm inputs) (coeffs.beta * hsFromAdnoc inputs coeffs) * (1 + alertGamma inputs.alert)

/-- Local value wind_fused of decide_and_eta. -/
def windFused (inputs : FusionInputs) : ℚ :=
  max inputs.windAdnoc inputs.windAlbahar

/-- The decision string before the coastal-window downgrade of
decide_and_eta. -/
def decisionBeforeDowngrade (inputs : FusionInputs) (coeffs : FusionCoefficients) : String :=
  if isForcedNoGo inputs.alert then "No-Go"
  else if hsFused inputs coeffs ≤ 1 ∧ windFused inputs ≤ 20 ∧ alertGamma inputs.alert = 0 then
    "Go"
  else if hsFused inputs coeffs > 12/10 ∨ windFused inputs > 22 then "No-Go"
  else "Conditional Go"

/-- The decision string after the coastal-window downgrade of
decide_and_eta. -/
def decisionOf (inputs : FusionInputs) (coeffs : FusionCoefficients) : String :=
  if decisionBeforeDowngrade inputs coeffs = "No-Go" ∧
      inputs.offshoreWeight ≤ 40/100 ∧ hsOnM inputs ≤ 1 ∧
      alertGamma inputs.alert ≤ 15/100 then
    "Conditional Go (coastal window)"
  else decisionBeforeDowngrade inputs coeffs

/-- Local value effective_speed of decide_and_eta. -/
def effectiveSpeed (inputs : FusionInputs) (coeffs : FusionCoefficients) : ℚ :=
  max (inputs.plannedSpeedKt -
        coeffs.windFactor * max (windFused inputs - 10) 0 -
        coeffs.waveFactor * hsFused inputs coeffs)
      MIN_SPEED_KT

/-- Embedding of decide_and_eta.  The optional coefficients argument models
the Python signature coefficients: FusionCoefficients | None = None; the
Python local variables are the named helper functions above. -/
def decideAndEta (inputs : FusionInputs) (coefficients : Option FusionCoefficients) :
    FusionResult :=
  let coeffs := coefficients.getD defaultCoefficients
  { hsFusedM := round2 (hsFused inputs coeffs)
    windFusedKt := round2 (windFused inputs)
    decision := decisionOf inputs coeffs
    etaHours := round2 (inputs.distanceNm / effectiveSpeed inputs coeffs)
    bufferMinutes := if inputs.offshoreWeight ≤ 40/100 then 45 else 60 }

/-- Fixture: the coastal-window scenario inputs of test_fusion.py. -/
def coastalScenarioInputs : FusionInputs :=
  ⟨6, 20, 3/2, 3, 20, some "rough at times westward", 7/20, 35, 12⟩

/-- Fixture: a fog alert combined with coastal-window conditions
(offshore weight 0, onshore height 0). -/
def fogCoastalInputs : FusionInputs :=
  ⟨0, 0, 0, 0, 0, some "fog", 0, 1, 1⟩

/-! ## Provider manager (src/wv/providers/manager.py) and forecast cache
(src/wv/utils/cache.py) -/

/-- Canonical forecast point of wv.core.models.ForecastPoint; optional
physical fields. -/
structure ForecastPoint where
  time : ℤ
  lat : ℚ
  lon : ℚ
  hs : Option ℚ := none
  tp : Option ℚ := none
  dp : Option ℚ := none
  windSpeed : Option ℚ := none
  windDir : Option ℚ := none
  swellHeight : Option ℚ := none
  swellPeriod : Option ℚ := none
  swellDir : Option ℚ := none
deriving DecidableEq

/-- Typed provider error of wv.providers.base.ProviderError. -/
structure ProviderError where
  code : String
  message : String
deriving DecidableEq

/-- A provider as the manager sees it for one request: a name and the
outcome of its single fetch_forecast call at the requested coordinates. -/
structure Provider where
  name : String
  fetch : Except ProviderError (List ForecastPoint)

/-- Cache entry of wv.utils.cache.CacheEntry: stored points plus the
freshness flag. -/
structure CacheEntry where
  points : List ForecastPoint
  fresh : Bool
deriving DecidableEq

/-- Outcome of fetch_with_fallback: the returned points or a raised
ProviderError, the providers invoked in order, and the cache write if one
happened. -/
structure FetchOutcome where
  result : Except ProviderError (List ForecastPoint)
  invoked : List String
  cacheWrite : Option (List ForecastPoint)

/-- Does this provider fail for the request: it raises a ProviderError or
returns an empty point list (which fetch_with_fallback converts into a
ProviderError with code empty). -/
def providerFails (p : Provider) : Bool :=
  match p.fetch with
  | Except.error _ => true
  | Except.ok pts => pts.isEmpty

/-- The ProviderError that a failing provider contributes as last_error:
its raised error, or the synthesized empty error. -/
def providerFailError (p : Provider) : ProviderError :=
  match p.fetch with
  | Except.error e => e
  | Except.ok _ => ⟨"empty", p.name ++ " returned no data"⟩

/-- The code carried by the final ProviderError when every provider fails:
the last provider failure code, or unknown with no providers. -/
def lastFailCode (providers : List Provider) : String :=
  match providers.getLast? with
  | some p => (providerFailError p).code
  | none => "unknown"

/-- The code of the error raised when the loop over the given providers is
exhausted, starting from an incoming last_error value: the last failure
code among the providers, else the incoming code, else unknown. -/
def exhaustedCode : List Provider → Option ProviderError → String
  | [], lastError => (lastError.map ProviderError.code).getD "unknown"
  | p :: rest, _ => exhaustedCode rest (some (providerFailError p))

/-- The provider loop of fetch_with_fallback: try each provider in order,
keeping last_error; on first non-empty success save to cache and return;
when exhausted return the (stale) cache entry if present, else raise a
ProviderError with the last failure code or unknown. -/
def tryProviders (cached : Option CacheEntry) :
    List Provider → Option ProviderError → FetchOutcome
  | [], lastError =>
    match cached with
    | some entry => ⟨Except.ok entry.points, [], none⟩
    | none =>
      ⟨Except.error ⟨(lastError.map ProviderError.code).getD "unknown",
        "All providers failed"⟩, [], none⟩
  | p :: rest, _lastError =>
    match p.fetch with
    | Except.ok pts =>
      if pts.isEmpty then
        let out := tryProviders cached rest (some ⟨"empty", p.name ++ " returned no data"⟩)
        ⟨out.result, p.name :: out.invoked, out.cacheWrite⟩
      else
        ⟨Except.ok pts, [p.name], some pts⟩
    | Except.error e =>
      let out := tryProviders cached rest (some e)
      ⟨out.result, p.name :: out.invoked, out.cacheWrite⟩

/-- Embedding of ProviderManager.fetch_with_fallback.  The cached argument
is the result of self.cache.load(key) for the derived key; a fresh entry
is returned with no provider invoked, otherwise the provider loop runs. -/
def fetchWithFallback (cached : Option CacheEntry) (providers : List Provider) :
    FetchOutcome :=
  match cached with
  | some entry =>
    if entry.fresh then ⟨Except.ok entry.points, [], none⟩
    else tryProviders cached providers none
  | none => tryProviders none providers none

/-- Cache key of wv.utils.cache.CacheKey. -/
structure CacheKey where
  provider : String
  lat : ℚ
  lon : ℚ
  hours : ℤ
deriving DecidableEq

/-- Python fixed-point formatting to 4 decimals, f-string {x:.4f}: the
printed string is determined by the sign of the value together with the
half-even rounding of its absolute value to 4 decimals (a tiny negative
value prints as -0.0000, distinct from 0.0000). -/
def fmt4 (q : ℚ) : Bool × ℚ := (decide (q < 0), round4 |q|)

/-- The string hashed by CacheKey.digest, as its injective components:
provider, lat and lon formatted to 4 decimals, and hours.  Two keys
produce the same sha256 digest and hence the same cache file exactly when
these components agree. -/
def digestInput (k : CacheKey) : String × (Bool × ℚ) × (Bool × ℚ) × ℤ :=
  (k.provider, fmt4 k.lat, fmt4 k.lon, k.hours)

/-- Embedding of ForecastCache.load: the entry argument is the stored file
content for the key (write timestamp and points) or none when no file
exists; ages are in seconds. -/
def cacheLoad (entry : Option (ℤ × List ForecastPoint)) (now ttl staleTtl : ℤ) :
    Option CacheEntry :=
  match entry with
  | none => none
  | some (written, pts) =>
    if now - written > staleTtl then none
    else some ⟨pts, decide (now - written ≤ ttl)⟩

/-! ## Marine data model

The module marine_ops.core.schema is not present under src (only its
importers are), so the data types below are modelled from the data-model
section of the spec. -/

/-- Modelled from the spec: the MarineVariable enumeration of the absent
module marine_ops.core.schema, after the enumerated physical quantities of
the data model (significant wave height, wind speed and direction, swell
height, period and direction, tide height). -/
inductive MarineVariable
  | significantWaveHeight
  | windSpeed
  | windDirection
  | swellHeight
  | swellPeriod
  | swellDirection
  | tideHeight
deriving DecidableEq

/-- Modelled from the spec: the quality flag enumeration raw, imputed,
clipped of the absent module marine_ops.core.schema. -/
inductive QualityFlag
  | raw
  | imputed
  | clipped
deriving DecidableEq

/-- Modelled from the spec: the unit enumeration of the absent module
marine_ops.core.schema (meters, meters per second, degrees, and the like). -/
inductive UnitEnum
  | meters
  | metersPerSecond
  | knots
  | degrees
  | seconds
deriving DecidableEq

/-- Modelled from the spec: geographic position. -/
structure Position where
  latitude : ℚ
  longitude : ℚ
deriving DecidableEq

/-- Modelled from the spec: one measurement (variable, value, unit,
quality flag); the Python field name variable is a Lean keyword and is
shortened to var. -/
structure MarineMeasurement where
  var : MarineVariable
  value : ℚ
  unit : UnitEnum
  qualityFlag : QualityFlag
deriving DecidableEq

/-- Modelled from the spec: timeseries metadata (source, optional source
URL, unit mapping, bias-corrected flag, optional ensemble weight). -/
structure TimeseriesMetadata where
  source : String
  sourceUrl : Option String
  units : List (MarineVariable × UnitEnum)
  biasCorrected : Bool
  ensembleWeight : Option ℚ
deriving DecidableEq

/-- Modelled from the spec: a data point (timestamp, position, ordered
measurements, metadata).  Timestamps are embedded as integers at the
canonical second resolution, so the exact-timestamp string key used by the
ensemble grouping is the integer itself and its lexicographic order is the
integer order. -/
structure MarineDataPoint where
  timestamp : ℤ
  position : Position
  measurements : List MarineMeasurement
  metadata : TimeseriesMetadata
deriving DecidableEq

/-- Modelled from the spec: a timeseries is an ordered sequence of data
points. -/
structure MarineTimeseries where
  points : List MarineDataPoint
deriving DecidableEq

/-! ## Quality control (src/marine_ops/core/qc.py) -/

/-- Embedding of _clip_value: clip to the optional minimum first, then to
the optional maximum; None bounds never clip. -/
def clipValue (value : ℚ) (mi ma : Option ℚ) : ℚ :=
  match mi with
  | some lo =>
    if value < lo then lo
    else
      match ma with
      | some hi => if value > hi then hi else value
      | none => value
  | none =>
    match ma with
    | some hi => if value > hi then hi else value
    | none => value

/-- Insertion into an ascending list. -/
def insertSorted (x : ℚ) : List ℚ → List ℚ
  | [] => [x]
  | y :: ys => if x ≤ y then x :: y :: ys else y :: insertSorted x ys

/-- Ascending insertion sort, embedding the sorted() call inside the
CPython quantiles implementation. -/
def sortRat (l : List ℚ) : List ℚ := l.foldr insertSorted []

/-- The i-th quartile of CPython statistics.quantiles(data, n=4,
method="inclusive") on the sorted list s: with m = len(s) - 1 and
j, delta = divmod(i * m, 4), interpolate (s[j]*(4-delta) + s[j+1]*delta)/4. -/
def quartileInclusive (s : List ℚ) (i : ℕ) : ℚ :=
  (s.getD ((i * (s.length - 1)) / 4) 0 * ((4:ℚ) - ((i * (s.length - 1)) % 4 : ℕ)) +
    s.getD ((i * (s.length - 1)) / 4 + 1) 0 * ((i * (s.length - 1)) % 4 : ℕ)) / 4

/-- Embedding of compute_iqr_bounds: fewer than 4 samples give the
unbounded range, embedded as (none, none) for (-inf, inf); otherwise
[q1 - k*iqr, q3 + k*iqr] from the inclusive quartiles. -/
def computeIqrBounds (values : List ℚ) (multiplier : ℚ) : Option ℚ × Option ℚ :=
  if values.length < 4 then (none, none)
  else
    (some (quartileInclusive (sortRat values) 1 -
        multiplier * (quartileInclusive (sortRat values) 3 - quartileInclusive (sortRat values) 1)),
     some (quartileInclusive (sortRat values) 3 +
        multiplier * (quartileInclusive (sortRat values) 3 - quartileInclusive (sortRat values) 1)))

/-- All values of one variable across the series in traversal order: the
value_collector of apply_quality_controls, also the value_map of
apply_bias_correction. -/
def collectValues (ts : MarineTimeseries) (v : MarineVariable) : List ℚ :=
  ((ts.points.map MarineDataPoint.measurements).flatten.filter
    (fun m => decide (m.var = v))).map MarineMeasurement.value

/-- Quality control of a single measurement: clip to the physical bound of
its variable, then to the IQR bound computed from the whole series, and
flag as clipped when the value changed after rounding to 2 decimals. -/
def qcMeasurement (ts : MarineTimeseries)
    (physicalBounds : MarineVariable → Option ℚ × Option ℚ) (iqrMultiplier : ℚ)
    (m : MarineMeasurement) : MarineMeasurement :=
  { var := m.var
    value := clipValue (clipValue m.value (physicalBounds m.var).1 (physicalBounds m.var).2)
      (computeIqrBounds (collectValues ts m.var) iqrMultiplier).1
      (computeIqrBounds (collectValues ts m.var) iqrMultiplier).2
    unit := m.unit
    qualityFlag :=
      if round2 (clipValue (clipValue m.value (physicalBounds m.var).1 (physicalBounds m.var).2)
          (computeIqrBounds (collectValues ts m.var) iqrMultiplier).1
          (computeIqrBounds (collectValues ts m.var) iqrMultiplier).2) ≠ round2 m.value then
        QualityFlag.clipped
      else m.qualityFlag }

/-- Embedding of apply_quality_controls.  A physical-bounds mapping is a
total function into optional bound pairs, so a variable missing from the
Python mapping is the pair (none, none) as in the .get default. -/
def applyQualityControls (ts : MarineTimeseries)
    (physicalBounds : MarineVariable → Option ℚ × Option ℚ)
    (iqrMultiplier : ℚ) : MarineTimeseries :=
  ⟨ts.points.map (fun p =>
    { timestamp := p.timestamp
      position := p.position
      measurements := p.measurements.map (qcMeasurement ts physicalBounds iqrMultiplier)
      metadata := p.metadata })⟩

/-! ## Bias correction (src/marine_ops/core/bias.py) -/

/-- Mean of a list of values (statistics.mean; the empty case is guarded
by the caller). -/
def listMean (values : List ℚ) : ℚ := values.sum / values.length

/-- Population variance of a list of values. -/
def pvarianceOf (values : List ℚ) : ℚ :=
  (values.map (fun v => (v - listMean values) ^ 2)).sum / values.length

/-- Population standard deviation (statistics.pstdev).  The floating
square root of the source is embedded as the rational square root, exact
whenever the true deviation is rational; it is zero exactly when the
variance is zero, the only property the bias guard observes. -/
def pstdevOf (values : List ℚ) : ℚ := Rat.sqrt (pvarianceOf values)

/-- Embedding of _stats: (0, 0) on the empty list, sigma 0 for a single
sample, else mean and population standard deviation. -/
def statsOf (values : List ℚ) : ℚ × ℚ :=
  if values = [] then (0, 0)
  else (listMean values, if 1 < values.length then pstdevOf values else 0)

/-- Embedding of apply_bias_correction.  When disabled the input series is
returned unchanged.  math.isclose(sigma, 0.0) has absolute tolerance 0 and
relative tolerance proportional to sigma itself, so it holds exactly when
sigma is zero and is embedded as equality with zero. -/
def applyBiasCorrection (ts : MarineTimeseries)
    (background : MarineVariable → List ℚ) (enabled : Bool) : MarineTimeseries :=
  if enabled = false then ts
  else
    ⟨ts.points.map (fun p =>
      { timestamp := p.timestamp
        position := p.position
        measurements := p.measurements.map (fun m =>
          { var := m.var
            value :=
              if (statsOf (collectValues ts m.var)).2 = 0 ∨
                  (statsOf (background m.var)).2 = 0 then m.value
              else
                (m.value - (statsOf (collectValues ts m.var)).1) /
                    (statsOf (collectValues ts m.var)).2 *
                    (statsOf (background m.var)).2 +
                  (statsOf (background m.var)).1
            unit := m.unit
            qualityFlag := m.qualityFlag })
        metadata :=
          { source := p.metadata.source
            sourceUrl := p.metadata.sourceUrl
            units := p.metadata.units
            biasCorrected := true
            ensembleWeight := p.metadata.ensembleWeight } })⟩

/-! ## Weighted ensemble (src/marine_ops/core/ensemble.py) -/

/-- Sum of the weight values of a mapping, embedded as an association
list. -/
def ensembleTotal (weights : List (String × ℚ)) : ℚ := (weights.map Prod.snd).sum

/-- The normalized weight dictionary built by _normalize_weights: every
weight divided by the total and rounded to 4 decimals. -/
def normalizedList (weights : List (String × ℚ)) : List (String × ℚ) :=
  weights.map (fun p => (p.1, round4 (p.2 / ensembleTotal weights)))

/-- Embedding of _normalize_weights: the ValueError on a zero-sum mapping
is the none outcome. -/
def normalizeWeights (weights : List (String × ℚ)) : Option (List (String × ℚ)) :=
  if ensembleTotal weights = 0 then none else some (normalizedList weights)

/-- Dictionary lookup normalized.get(source). -/
def lookupWeight (normalized : List (String × ℚ)) (source : String) : Option ℚ :=
  (normalized.find? (fun p => p.1 == source)).map Prod.snd

/-- The points of all input series in traversal order whose source has a
configured weight; points of unweighted sources are silently skipped. -/
def weightedPoints (seriesList : List MarineTimeseries)
    (normalized : List (String × ℚ)) : List MarineDataPoint :=
  ((seriesList.map MarineTimeseries.points).flatten).filter
    (fun p => (lookupWeight normalized p.metadata.source).isSome)

/-- The (measurement, weight) contributions collected into
value_bucket[key][variable], in traversal order. -/
def contribsFor (seriesList : List MarineTimeseries) (normalized : List (String × ℚ))
    (t : ℤ) (v : MarineVariable) : List (MarineMeasurement × ℚ) :=
  (((weightedPoints seriesList normalized).filter (fun p => decide (p.timestamp = t))).map
    (fun p => (p.measurements.filter (fun m => decide (m.var = v))).map
      (fun m => (m, (lookupWeight normalized p.metadata.source).getD 0)))).flatten

/-- Insertion into an ascending integer list. -/
def insertSortedInt (x : ℤ) : List ℤ → List ℤ
  | [] => [x]
  | y :: ys => if x ≤ y then x :: y :: ys else y :: insertSortedInt x ys

/-- Ascending insertion sort on integers, embedding the sorted() over the
canonical timestamp keys (zero-padded timestamp strings sort like the
integers they encode). -/
def sortInt (l : List ℤ) : List ℤ := l.foldr insertSortedInt []

/-- The group keys of value_bucket: timestamps of weighted points that
carry at least one measurement, deduplicated, in ascending order. -/
def groupKeys (seriesList : List MarineTimeseries)
    (normalized : List (String × ℚ)) : List ℤ :=
  sortInt ((((weightedPoints seriesList normalized).filter
    (fun p => !p.measurements.isEmpty)).map MarineDataPoint.timestamp).dedup)

/-- The first weighted point of a timestamp group
(position_bucket.setdefault). -/
def basePointOf (seriesList : List MarineTimeseries)
    (normalized : List (String × ℚ)) (t : ℤ) : Option MarineDataPoint :=
  (weightedPoints seriesList normalized).find? (fun p => decide (p.timestamp = t))

/-- The OR of bias_corrected over all weighted points of a group
(bias_flag). -/
def biasFlagFor (seriesList : List MarineTimeseries)
    (normalized : List (String × ℚ)) (t : ℤ) : Bool :=
  ((weightedPoints seriesList normalized).filter (fun p => decide (p.timestamp = t))).any
    (fun p => p.metadata.biasCorrected)

/-- The variables of a group in first-appearance order, the insertion
order of the dictionary value_bucket[key]. -/
def groupVars (seriesList : List MarineTimeseries)
    (normalized : List (String × ℚ)) (t : ℤ) : List MarineVariable :=
  ((((weightedPoints seriesList normalized).filter (fun p => decide (p.timestamp = t))).map
    (fun p => p.measurements.map MarineMeasurement.var)).flatten).dedup

/-- The aggregated measurement of one group and variable: weighted average
with the weights re-summed per variable; a zero weight sum drops the
variable; the flag propagates clipped before imputed before raw; the unit
is the first contribution's unit. -/
def ensembleMeasurement (seriesList : List MarineTimeseries)
    (normalized : List (String × ℚ)) (t : ℤ) (v : MarineVariable) :
    Option MarineMeasurement :=
  if ((contribsFor seriesList normalized t v).map Prod.snd).sum = 0 then none
  else some
    { var := v
      value := ((contribsFor seriesList normalized t v).map (fun c => c.1.value * c.2)).sum /
        ((contribsFor seriesList normalized t v).map Prod.snd).sum
      unit := (((contribsFor seriesList normalized t v).head?).map
        (fun c => c.1.unit)).getD UnitEnum.meters
      qualityFlag :=
        if (contribsFor seriesList normalized t v).any
            (fun c => decide (c.1.qualityFlag = QualityFlag.clipped)) then
          QualityFlag.clipped
        else if (contribsFor seriesList normalized t v).any
            (fun c => decide (c.1.qualityFlag = QualityFlag.imputed)) then
          QualityFlag.imputed
        else QualityFlag.raw }

/-- The ensemble output point of one timestamp group: timestamp and
position of the first-seen contributing point, aggregated measurements in
variable insertion order, ensemble metadata. -/
def ensemblePointAt (seriesList : List MarineTimeseries)
    (normalized : List (String × ℚ)) (t : ℤ) : Option MarineDataPoint :=
  (basePointOf seriesList normalized t).map (fun bp =>
    { timestamp := bp.timestamp
      position := bp.position
      measurements := (groupVars seriesList normalized t).filterMap
        (ensembleMeasurement seriesList normalized t)
      metadata :=
        { source := "ensemble"
          sourceUrl := none
          units := bp.metadata.units
          biasCorrected := biasFlagFor seriesList normalized t
          ensembleWeight := some 1 } })

/-- Embedding of weighted_ensemble; the ValueError raised on a zero-sum
weight mapping is the none outcome. -/
def weightedEnsemble (seriesList : List MarineTimeseries)
    (weights : List (String × ℚ)) : Option MarineTimeseries :=
  if ensembleTotal weights = 0 then none
  else some ⟨(groupKeys seriesList (normalizedList weights)).filterMap
    (ensemblePointAt seriesList (normalizedList weights))⟩

/-! ## ERI rule engine (src/marine_ops/eri/rules.py and compute.py) -/

/-- Threshold rule of the ERI rule set; the Python field name variable is
a Lean keyword and is shortened to var; direction defaults to max at the
loader. -/
structure ThresholdRule where
  var : MarineVariable
  caution : ℚ
  danger : ℚ
  weight : ℚ
  direction : String
deriving DecidableEq

/-- ERI rule set: base score, penalties, ordered rules. -/
structure ERIRuleSet where
  baseScore : ℚ
  cautionPenalty : ℚ
  dangerPenalty : ℚ
  rules : List ThresholdRule
deriving DecidableEq

/-- ERI quality badge. -/
structure QualityBadge where
  source : String
  hasMissing : Bool
  biasCorrected : Bool
deriving DecidableEq

/-- ERI timeseries point. -/
structure ERIPoint where
  timestamp : ℤ
  score : ℚ
  quality : QualityBadge
deriving DecidableEq

/-- Embedding of _score_for_measurement: 2 danger, 1 caution, 0 none,
with direction max meaning higher is worse. -/
def scoreForMeasurement (value : ℚ) (rule : ThresholdRule) : ℚ :=
  if rule.direction = "max" then
    if value ≥ rule.danger then 2 else if value ≥ rule.caution then 1 else 0
  else
    if value ≤ rule.danger then 2 else if value ≤ rule.caution then 1 else 0

/-- Embedding of _find_measurement: first measurement of the point with
the given variable. -/
def findMeasurement (point : MarineDataPoint) (v : MarineVariable) :
    Option MarineMeasurement :=
  point.measurements.find? (fun m => decide (m.var = v))

/-- One iteration of the rule loop of compute_eri_timeseries on the
(penalty, has_missing) accumulator: a missing measurement adds
weight * caution_penalty and marks has_missing; otherwise the severity
state picks the penalty. -/
def eriStep (ruleSet : ERIRuleSet) (point : MarineDataPoint)
    (acc : ℚ × Bool) (rule : ThresholdRule) : ℚ × Bool :=
  match findMeasurement point rule.var with
  | none => (acc.1 + rule.weight * ruleSet.cautionPenalty, true)
  | some m =>
    if scoreForMeasurement m.value rule = 2 then
      (acc.1 + rule.weight * ruleSet.dangerPenalty, acc.2)
    else if scoreForMeasurement m.value rule = 1 then
      (acc.1 + rule.weight * ruleSet.cautionPenalty, acc.2)
    else acc

/-- The (penalty, has_missing) accumulation over the rules of
compute_eri_timeseries for a single point. -/
def eriPenalty (ruleSet : ERIRuleSet) (point : MarineDataPoint) : ℚ × Bool :=
  ruleSet.rules.foldl (eriStep ruleSet point) (0, false)

/-- Embedding of compute_eri_timeseries: one ERIPoint per input point in
order, score max(0, base_score - penalty) rounded to 2 decimals, badge
from the point metadata and the missing flag. -/
def computeEriTimeseries (ts : MarineTimeseries) (ruleSet : ERIRuleSet) : List ERIPoint :=
  ts.points.map (fun point =>
    { timestamp := point.timestamp
      score := round2 (max 0 (ruleSet.baseScore - (eriPenalty ruleSet point).1))
      quality :=
        { source := point.metadata.source
          hasMissing := (eriPenalty ruleSet point).2
          biasCorrected := point.metadata.biasCorrected } })

/-- Fixture: a forecast point for manager and cache witnesses. -/
def witnessPoint : ForecastPoint :=
  ⟨0, 25, 55, none, none, none, none, none, none, none, none⟩

/-- Fixture: a provider that succeeds with one point. -/
def provGood : Provider := ⟨"noaa", Except.ok [witnessPoint]⟩

/-- Fixture: a provider that raises a timeout ProviderError. -/
def provErr : Provider := ⟨"stormglass", Except.error ⟨"timeout", "slow upstream"⟩⟩

/-- Fixture: a provider that returns an empty point list. -/
def provEmpty : Provider := ⟨"open-meteo", Except.ok []⟩

/-- Fixture: metadata for marine series fixtures. -/
def fixtureMetadata : TimeseriesMetadata :=
  ⟨"stormglass", none, [], false, none⟩

/-- Fixture: a rule set whose single rule has a negative weight, which the
ThresholdRule type admits (weight is an unconstrained float). -/
def eriCexRules : ERIRuleSet :=
  ⟨100, 10, 20, [⟨MarineVariable.significantWaveHeight, 1, 2, -1, "max"⟩]⟩

/-- Fixture: a data point with no measurements, so the rule above is
missing. -/
def eriCexPoint : MarineDataPoint := ⟨0, ⟨25, 55⟩, [], fixtureMetadata⟩

/-- Fixture: the single-point series for the ERI counterexample. -/
def eriCexTs : MarineTimeseries := ⟨[eriCexPoint]⟩

/-- Fixture: a rule set with non-negative weight and penalties and a
2-decimal base score. -/
def eriWitnessRules : ERIRuleSet :=
  ⟨100, 10, 20, [⟨MarineVariable.significantWaveHeight, 1, 2, 1, "max"⟩]⟩

/-- Fixture: a data point with one dangerous wave-height measurement. -/
def eriWitnessDataPoint : MarineDataPoint :=
  ⟨0, ⟨25, 55⟩,
    [⟨MarineVariable.significantWaveHeight, 3, UnitEnum.meters, QualityFlag.raw⟩],
    fixtureMetadata⟩

/-- Fixture: the series with that single point. -/
def eriWitnessTs : MarineTimeseries := ⟨[eriWitnessDataPoint]⟩

/-- Fixture: the single ERI point computed from the witness series. -/
def eriWitnessPoint : ERIPoint :=
  ⟨0, round2 (max 0 (eriWitnessRules.baseScore -
      (eriPenalty eriWitnessRules eriWitnessDataPoint).1)),
    ⟨"stormglass", (eriPenalty eriWitnessRules eriWitnessDataPoint).2, false⟩⟩

/-- Fixture: an unbounded physical-bounds mapping. -/
def qcCexBounds : MarineVariable → Option ℚ × Option ℚ := fun _ => (none, none)

/-- Fixture: four wave-height samples 0, 0, 0, 16 whose IQR upper bound
1.5 clips the outlier to 10 on a first pass. -/
def qcCexTs : MarineTimeseries :=
  ⟨[⟨0, ⟨25, 55⟩, [⟨MarineVariable.significantWaveHeight, 0, UnitEnum.meters,
      QualityFlag.raw⟩], fixtureMetadata⟩,
    ⟨1, ⟨25, 55⟩, [⟨MarineVariable.significantWaveHeight, 0, UnitEnum.meters,
      QualityFlag.raw⟩], fixtureMetadata⟩,
    ⟨2, ⟨25, 55⟩, [⟨MarineVariable.significantWaveHeight, 0, UnitEnum.meters,
      QualityFlag.raw⟩], fixtureMetadata⟩,
    ⟨3, ⟨25, 55⟩, [⟨MarineVariable.significantWaveHeight, 16, UnitEnum.meters,
      QualityFlag.raw⟩], fixtureMetadata⟩]⟩

/-- Fixture: the quality-controlled qcCexTs after one pass: the outlier is
clipped to the IQR bound 10. -/
def qcCexOnce : MarineTimeseries :=
  ⟨[⟨0, ⟨25, 55⟩, [⟨MarineVariable.significantWaveHeight, 0, UnitEnum.meters,
      QualityFlag.raw⟩], fixtureMetadata⟩,
    ⟨1, ⟨25, 55⟩, [⟨MarineVariable.significantWaveHeight, 0, UnitEnum.meters,
      QualityFlag.raw⟩], fixtureMetadata⟩,
    ⟨2, ⟨25, 55⟩, [⟨MarineVariable.significantWaveHeight, 0, UnitEnum.meters,
      QualityFlag.raw⟩], fixtureMetadata⟩,
    ⟨3, ⟨25, 55⟩, [⟨MarineVariable.significantWaveHeight, 10, UnitEnum.meters,
      QualityFlag.clipped⟩], fixtureMetadata⟩]⟩

/-- Fixture: qcCexTs after two passes: the IQR bounds recomputed from the
once-clipped values clip the outlier further, to 25/4. -/
def qcCexTwice : MarineTimeseries :=
  ⟨[⟨0, ⟨25, 55⟩, [⟨MarineVariable.significantWaveHeight, 0, UnitEnum.meters,
      QualityFlag.raw⟩], fixtureMetadata⟩,
    ⟨1, ⟨25, 55⟩, [⟨MarineVariable.significantWaveHeight, 0, UnitEnum.meters,
      QualityFlag.raw⟩], fixtureMetadata⟩,
    ⟨2, ⟨25, 55⟩, [⟨MarineVariable.significantWaveHeight, 0, UnitEnum.meters,
      QualityFlag.raw⟩], fixtureMetadata⟩,
    ⟨3, ⟨25, 55⟩, [⟨MarineVariable.significantWaveHeight, 25/4, UnitEnum.meters,
      QualityFlag.clipped⟩], fixtureMetadata⟩]⟩

/-- Fixture: physical bounds [0, 4] on every variable. -/
def qcWitnessBounds : MarineVariable → Option ℚ × Option ℚ := fun _ => (some 0, some 4)

/-- Fixture: a two-sample series (0.5 and 5.0) as in the repository QC
test; fewer than 4 samples, so only the physical bound clips. -/
def qcWitnessTs : MarineTimeseries :=
  ⟨[⟨0, ⟨25, 55⟩, [⟨MarineVariable.significantWaveHeight, 1/2, UnitEnum.meters,
      QualityFlag.raw⟩], fixtureMetadata⟩,
    ⟨1, ⟨25, 55⟩, [⟨MarineVariable.significantWaveHeight, 5, UnitEnum.meters,
      QualityFlag.raw⟩], fixtureMetadata⟩]⟩

/-- Fixture: a weight mapping with a negative entry and non-zero sum. -/
def ensCexWeights : List (String × ℚ) := [("a", -1), ("b", 2)]

/-- Fixture: metadata of source a. -/
def ensMetaA : TimeseriesMetadata := ⟨"a", none, [], false, none⟩

/-- Fixture: metadata of source b. -/
def ensMetaB : TimeseriesMetadata := ⟨"b", none, [], false, none⟩

/-- Fixture: a single-point series from source a with wave height 1. -/
def ensSeriesA : MarineTimeseries :=
  ⟨[⟨0, ⟨25, 55⟩, [⟨MarineVariable.significantWaveHeight, 1, UnitEnum.meters,
    QualityFlag.raw⟩], ensMetaA⟩]⟩

/-- Fixture: a single-point series from source b with wave height 2. -/
def ensSeriesB : MarineTimeseries :=
  ⟨[⟨0, ⟨25, 55⟩, [⟨MarineVariable.significantWaveHeight, 2, UnitEnum.meters,
    QualityFlag.raw⟩], ensMetaB⟩]⟩

/-- Fixture: the 0.7/0.3 weight mapping of the spec ensemble scenario. -/
def ensWitnessWeights : List (String × ℚ) := [("a", 7/10), ("b", 3/10)]

/-! ## Theorems: rounding helpers -/

theorem roundHalfEven_le (q : ℚ) : (roundHalfEven q : ℚ) ≤ q + 1/2 := by
  unfold roundHalfEven
  have hf : (⌊q⌋ : ℚ) ≤ q := Int.floor_le q
  split
  · linarith
  · split
    · rename_i h1 h2
      push_cast
      linarith
    · split <;> push_cast <;> linarith [Int.floor_le q]

theorem le_roundHalfEven (q : ℚ) : q - 1/2 ≤ (roundHalfEven q : ℚ) := by
  unfold roundHalfEven
  have hf : q - 1 < (⌊q⌋ : ℚ) := by
    have := Int.lt_floor_add_one q
    linarith
  split
  · rename_i h1
    linarith
  · split
    · push_cast; linarith
    · rename_i h1 h2
      have : q - (⌊q⌋ : ℚ) = 1/2 := le_antisymm (not_lt.mp h2) (not_lt.mp h1)
      split <;> push_cast <;> linarith

theorem roundHalfEven_nonneg (q : ℚ) (h : 0 ≤ q) : 0 ≤ roundHalfEven q := by
  by_contra hneg
  push_neg at hneg
  have h1 : (roundHalfEven q : ℚ) ≤ -1 := by
    exact_mod_cast Int.le_of_lt_add_one (by exact_mod_cast hneg)
  have := le_roundHalfEven q
  linarith

theorem round2_nonneg (q : ℚ) (h : 0 ≤ q) : 0 ≤ round2 q := by
  unfold round2
  have := roundHalfEven_nonneg (q * 100) (by positivity)
  positivity

theorem round2_le_of_le (q b : ℚ) (h : q ≤ b) (hb : (b * 100).den = 1) :
    round2 q ≤ b := by
  unfold round2
  rw [div_le_iff₀ (by norm_num : (0:ℚ) < 100)]
  have hint : ((b * 100).num : ℚ) = b * 100 := by
    conv_rhs => rw [← Rat.num_div_den (b * 100)]
    rw [hb]
    simp
  have h1 : (roundHalfEven (q * 100) : ℚ) ≤ b * 100 + 1/2 := by
    have := roundHalfEven_le (q * 100)
    have : q * 100 ≤ b * 100 := by linarith
    linarith [roundHalfEven_le (q * 100)]
  have h2 : roundHalfEven (q * 100) ≤ (b * 100).num := by
    by_contra hc
    push_neg at hc
    have : ((b * 100).num : ℚ) + 1 ≤ (roundHalfEven (q * 100) : ℚ) := by
      exact_mod_cast Int.add_one_le_of_lt hc
    rw [hint] at this
    linarith
  calc (roundHalfEven (q * 100) : ℚ) ≤ ((b * 100).num : ℚ) := by exact_mod_cast h2
    _ = b * 100 := hint

theorem abs_round4_sub_le (q : ℚ) : |round4 q - q| ≤ 1/20000 := by
  unfold round4
  rw [abs_le]
  constructor
  · have := le_roundHalfEven (q * 10000)
    rw [div_sub' _ _ _ (by norm_num : (10000:ℚ) ≠ 0)]
    rw [le_div_iff₀ (by norm_num : (0:ℚ) < 10000)]
    linarith
  · have := roundHalfEven_le (q * 10000)
    rw [div_sub' _ _ _ (by norm_num : (10000:ℚ) ≠ 0)]
    rw [div_le_iff₀ (by norm_num : (0:ℚ) < 10000)]
    linarith

theorem round4_nonneg (q : ℚ) (h : 0 ≤ q) : 0 ≤ round4 q := by
  unfold round4
  have := roundHalfEven_nonneg (q * 10000) (by positivity)
  positivity

theorem roundHalfEven_eq (q : ℚ) (n : ℤ) (h1 : (n : ℚ) - 1/2 < q)
    (h2 : q < (n : ℚ) + 1/2) : roundHalfEven q = n := by
  rcases le_or_lt (n : ℚ) q with hle | hlt
  · have hfl : ⌊q⌋ = n := Int.floor_eq_iff.mpr ⟨hle, by linarith⟩
    unfold roundHalfEven
    rw [hfl]
    rw [if_pos (by linarith)]
  · have hfl : ⌊q⌋ = n - 1 := Int.floor_eq_iff.mpr ⟨by push_cast; linarith, by push_cast; linarith⟩
    unfold roundHalfEven
    rw [hfl]
    rw [if_neg (by push_cast; linarith), if_pos (by push_cast; linarith)]
    omega

theorem round2_eq (q : ℚ) (n : ℤ) (h1 : (n : ℚ) - 1/2 < q * 100)
    (h2 : q * 100 < (n : ℚ) + 1/2) : round2 q = (n : ℚ) / 100 := by
  unfold round2
  rw [roundHalfEven_eq (q * 100) n h1 h2]

theorem round4_eq (q : ℚ) (n : ℤ) (h1 : (n : ℚ) - 1/2 < q * 10000)
    (h2 : q * 10000 < (n : ℚ) + 1/2) : round4 q = (n : ℚ) / 10000 := by
  unfold round4
  rw [roundHalfEven_eq (q * 10000) n h1 h2]

/-! ## Claim C9: fusion coastal-window scenario -/

/-- C9: on the inputs combined_ft=6.0, wind_adnoc=20.0, hs_onshore_ft=1.5,
hs_offshore_ft=3.0, wind_albahar=20.0, alert rough at times westward,
offshore_weight=0.35, distance_nm=35.0, planned_speed_kt=12.0 with default
coefficients, decide_and_eta returns decision Conditional Go (coastal
window), hs_fused_m=1.43, wind_fused_kt=20.0, eta_hours=3.32 and
buffer_minutes=45. -/
theorem fusion_coastal_window_scenario :
    decideAndEta coastalScenarioInputs none =
      ⟨143/100, 20, "Conditional Go (coastal window)", 83/25, 45⟩ := by
  have hw : windFused coastalScenarioInputs = 20 := by
    norm_num [windFused, coastalScenarioInputs, max_def]
  have hh : hsFused coastalScenarioInputs defaultCoefficients = 14301216/10000000 := by
    unfold hsFused hsNcm hsOnM hsOffM hsFromAdnoc
    rw [show alertGamma coastalScenarioInputs.alert = 15/100 from rfl]
    norm_num [FT_TO_M, defaultCoefficients, max_def, coastalScenarioInputs]
  have hd0 : decisionBeforeDowngrade coastalScenarioInputs defaultCoefficients = "No-Go" := by
    unfold decisionBeforeDowngrade
    rw [show isForcedNoGo coastalScenarioInputs.alert = false from rfl, hh, hw]
    norm_num
  have hd : decisionOf coastalScenarioInputs defaultCoefficients =
      "Conditional Go (coastal window)" := by
    unfold decisionOf
    rw [hd0, show alertGamma coastalScenarioInputs.alert = 15/100 from rfl]
    rw [if_pos]
    refine ⟨rfl, ?_, ?_, ?_⟩ <;> norm_num [coastalScenarioInputs, hsOnM, FT_TO_M]
  have he : effectiveSpeed coastalScenarioInputs defaultCoefficients =
      1054192704/100000000 := by
    unfold effectiveSpeed
    rw [hh, hw]
    norm_num [defaultCoefficients, MIN_SPEED_KT, max_def, coastalScenarioInputs]
  unfold decideAndEta
  simp only [Option.getD]
  rw [hh, hw, hd, he]
  have e1 : round2 (14301216/10000000 : ℚ) = (143 : ℤ)/100 :=
    round2_eq _ 143 (by norm_num) (by norm_num)
  have e2 : round2 (20 : ℚ) = (2000 : ℤ)/100 := round2_eq _ 2000 (by norm_num) (by norm_num)
  have e3 : round2 ((coastalScenarioInputs.distanceNm / (1054192704/100000000) : ℚ)) =
      (332 : ℤ)/100 := by
    apply round2_eq <;> norm_num [coastalScenarioInputs]
  rw [e1, e2, e3]
  norm_num [coastalScenarioInputs]

/-! ## Claim C1: forced No-Go override -/

/-- C1 counterexample: the fog alert forces the pre-downgrade decision to
No-Go, yet on valid inputs with offshore_weight 0 and hs_onshore 0 the
coastal-window downgrade of step 5 relabels the result, so the final
decision is not No-Go. -/
theorem fusion_forced_no_go_cex :
    isForcedNoGo fogCoastalInputs.alert = true ∧
    fogCoastalInputs.Valid ∧
    (decideAndEta fogCoastalInputs none).decision = "Conditional Go (coastal window)" ∧
    (decideAndEta fogCoastalInputs none).decision ≠ "No-Go" := by
  have hdec : (decideAndEta fogCoastalInputs none).decision =
      "Conditional Go (coastal window)" := by
    show decisionOf fogCoastalInputs defaultCoefficients = _
    unfold decisionOf
    rw [show decisionBeforeDowngrade fogCoastalInputs defaultCoefficients = "No-Go" from rfl]
    rw [show alertGamma fogCoastalInputs.alert = 0 from rfl]
    rw [if_pos]
    refine ⟨rfl, ?_, ?_, ?_⟩ <;> norm_num [fogCoastalInputs, hsOnM, FT_TO_M]
  refine ⟨rfl, ?_, hdec, ?_⟩
  · refine ⟨?_, ?_, ?_, ?_, ?_, ?_, ?_, ?_, ?_⟩ <;> norm_num [fogCoastalInputs]
  · rw [hdec]
    intro h
    exact absurd h (by simp)

/-- C1 amended: for every valid FusionInputs whose trimmed, casefolded
alert starts with high seas or with fog, the decision is No-Go unless the
coastal-window downgrade conditions hold (offshore_weight at most 0.40,
onshore height at most 1.0 m, gamma at most 0.15), in which case it is
relabelled Conditional Go (coastal window); for an alert starting with
high seas the downgrade never applies (gamma is 0.30), so the decision is
always No-Go. -/
theorem fusion_forced_no_go_amended (inputs : FusionInputs)
    (copt : Option FusionCoefficients) (_hvalid : inputs.Valid)
    (hf : isForcedNoGo inputs.alert = true) :
    ((decideAndEta inputs copt).decision =
      if inputs.offshoreWeight ≤ 40/100 ∧ hsOnM inputs ≤ 1 ∧
          alertGamma inputs.alert ≤ 15/100 then
        "Conditional Go (coastal window)"
      else "No-Go") ∧
    (startsWithChars (alertKey inputs.alert) "high seas".data = true →
      (decideAndEta inputs copt).decision = "No-Go") := by
  have hdec : (decideAndEta inputs copt).decision =
      decisionOf inputs (copt.getD defaultCoefficients) := rfl
  have hd0 : decisionBeforeDowngrade inputs (copt.getD defaultCoefficients) = "No-Go" := by
    unfold decisionBeforeDowngrade
    rw [hf]
    simp
  have hmain : (decideAndEta inputs copt).decision =
      if inputs.offshoreWeight ≤ 40/100 ∧ hsOnM inputs ≤ 1 ∧
          alertGamma inputs.alert ≤ 15/100 then
        "Conditional Go (coastal window)"
      else "No-Go" := by
    rw [hdec]
    unfold decisionOf
    rw [hd0]
    simp
  refine ⟨hmain, fun hhs => ?_⟩
  have hg : alertGamma inputs.alert = 30/100 := by
    unfold alertGamma
    rw [hhs]
    simp
  rw [hmain, hg]
  rw [if_neg]
  rintro ⟨-, -, h3⟩
  norm_num at h3

/-- C1 amended witness: the amended statement discharged on the concrete
fog fixture. -/
theorem fusion_forced_no_go_amended_witness :
    ((decideAndEta fogCoastalInputs none).decision =
      if fogCoastalInputs.offshoreWeight ≤ 40/100 ∧ hsOnM fogCoastalInputs ≤ 1 ∧
          alertGamma fogCoastalInputs.alert ≤ 15/100 then
        "Conditional Go (coastal window)"
      else "No-Go") ∧
    (startsWithChars (alertKey fogCoastalInputs.alert) "high seas".data = true →
      (decideAndEta fogCoastalInputs none).decision = "No-Go") :=
  fusion_forced_no_go_amended fogCoastalInputs none
    (by refine ⟨?_, ?_, ?_, ?_, ?_, ?_, ?_, ?_, ?_⟩ <;> norm_num [fogCoastalInputs])
    rfl

/-! ## Claims C2 and C3: provider manager fallback -/

theorem tryProviders_first_success (cached : Option CacheEntry) (post : List Provider)
    (p : Provider) (pts : List ForecastPoint) (hok : p.fetch = Except.ok pts)
    (hne : pts ≠ []) :
    ∀ (pre : List Provider) (lastError : Option ProviderError),
      (∀ q ∈ pre, providerFails q = true) →
      tryProviders cached (pre ++ p :: post) lastError =
        ⟨Except.ok pts, pre.map Provider.name ++ [p.name], some pts⟩ := by
  intro pre
  induction pre with
  | nil =>
    intro lastError _
    simp only [List.nil_append, List.map_nil]
    simp only [tryProviders]
    rw [hok]
    have hemp : pts.isEmpty = false := by
      cases pts
      · exact absurd rfl hne
      · rfl
    simp [hemp]
  | cons q rest ih =>
    intro lastError hfails
    have hq : providerFails q = true := hfails q (List.mem_cons_self q rest)
    have hrest : ∀ r ∈ rest, providerFails r = true :=
      fun r hr => hfails r (List.mem_cons_of_mem q hr)
    simp only [tryProviders]
    cases hqf : q.fetch with
    | ok qpts =>
      have hqe : qpts.isEmpty = true := by
        unfold providerFails at hq
        rw [hqf] at hq
        exact hq
      simp only [hqe, if_true, List.append_eq, List.map_cons, List.cons_append]
      rw [ih _ hrest]
    | error e =>
      simp only [List.append_eq, List.map_cons, List.cons_append]
      rw [ih _ hrest]

theorem exhaustedCode_cons (q : Provider) (rest : List Provider)
    (lastError : Option ProviderError) :
    exhaustedCode (q :: rest) lastError = exhaustedCode rest (some (providerFailError q)) :=
  rfl

theorem exhaustedCode_eq_lastFailCode (providers : List Provider) :
    ∀ lastError : Option ProviderError,
      exhaustedCode providers lastError =
        match providers.getLast? with
        | some p => (providerFailError p).code
        | none => (lastError.map ProviderError.code).getD "unknown" := by
  induction providers with
  | nil => intro lastError; rfl
  | cons q rest ih =>
    intro lastError
    rw [exhaustedCode_cons, ih (some (providerFailError q))]
    cases rest with
    | nil => rfl
    | cons r rs => rfl

theorem tryProviders_all_fail (cached : Option CacheEntry) :
    ∀ (providers : List Provider) (lastError : Option ProviderError),
      (∀ q ∈ providers, providerFails q = true) →
      tryProviders cached providers lastError =
        ⟨(match cached with
          | some entry => Except.ok entry.points
          | none =>
            Except.error ⟨exhaustedCode providers lastError, "All providers failed"⟩),
         providers.map Provider.name, none⟩ := by
  intro providers
  induction providers with
  | nil =>
    intro lastError _
    cases cached <;> rfl
  | cons q rest ih =>
    intro lastError hfails
    have hq : providerFails q = true := hfails q (List.mem_cons_self q rest)
    have hrest : ∀ r ∈ rest, providerFails r = true :=
      fun r hr => hfails r (List.mem_cons_of_mem q hr)
    rw [exhaustedCode_cons]
    simp only [tryProviders]
    cases hqf : q.fetch with
    | ok qpts =>
      have hqe : qpts.isEmpty = true := by
        unfold providerFails at hq
        rw [hqf] at hq
        exact hq
      have hfe : providerFailError q = ⟨"empty", q.name ++ " returned no data"⟩ := by
        unfold providerFailError
        rw [hqf]
      simp only [hqe, if_true, List.map_cons]
      rw [← hfe, ih _ hrest]
    | error e =>
      have hfe : providerFailError q = e := by
        unfold providerFailError
        rw [hqf]
      simp only [List.map_cons]
      rw [← hfe, ih _ hrest]

/-- C2: fetch_with_fallback returns a fresh cache entry immediately with no
provider invoked; otherwise providers run in list order and the first one
whose fetch_forecast returns a non-empty point list has that list written
to the cache and returned, with no later provider invoked. -/
theorem manager_fallback_first_success :
    (∀ (entry : CacheEntry) (providers : List Provider), entry.fresh = true →
      fetchWithFallback (some entry) providers = ⟨Except.ok entry.points, [], none⟩) ∧
    (∀ (cached : Option CacheEntry) (pre post : List Provider) (p : Provider)
        (pts : List ForecastPoint),
      (∀ e, cached = some e → e.fresh = false) →
      (∀ q ∈ pre, providerFails q = true) →
      p.fetch = Except.ok pts → pts ≠ [] →
      fetchWithFallback cached (pre ++ p :: post) =
        ⟨Except.ok pts, pre.map Provider.name ++ [p.name], some pts⟩) := by
  constructor
  · intro entry providers hfresh
    show (if entry.fresh = true then
        FetchOutcome.mk (Except.ok entry.points) [] none
      else tryProviders (some entry) providers none) = _
    rw [hfresh]
    simp
  · intro cached pre post p pts hstale hfails hok hne
    cases cached with
    | none =>
      show tryProviders none (pre ++ p :: post) none = _
      exact tryProviders_first_success none post p pts hok hne pre none hfails
    | some entry =>
      have hf : entry.fresh = false := hstale entry rfl
      show (if entry.fresh = true then
          FetchOutcome.mk (Except.ok entry.points) [] none
        else tryProviders (some entry) (pre ++ p :: post) none) = _
      rw [hf]
      simp only [Bool.false_eq_true, if_false]
      exact tryProviders_first_success (some entry) post p pts hok hne pre none hfails

/-- C2 witness: a fresh cache entry short-circuits the providers, and with
chain [error-provider, good-provider, empty-provider] and no cache the
manager returns the good provider result after invoking exactly the first
two, writing the result to the cache. -/
theorem manager_fallback_first_success_witness :
    fetchWithFallback (some ⟨[witnessPoint], true⟩) [provErr, provGood] =
      ⟨Except.ok [witnessPoint], [], none⟩ ∧
    fetchWithFallback none ([provErr] ++ provGood :: [provEmpty]) =
      ⟨Except.ok [witnessPoint], ["stormglass", "noaa"], some [witnessPoint]⟩ :=
  ⟨manager_fallback_first_success.1 ⟨[witnessPoint], true⟩ [provErr, provGood] rfl,
   manager_fallback_first_success.2 none [provErr] [provEmpty] provGood [witnessPoint]
     (fun _ h => nomatch h) (by decide) rfl (by decide)⟩

/-- C3: when every provider fails (raises, or returns an empty list, which
is itself a failure), fetch_with_fallback returns the stale cache entry
points if one exists, and otherwise raises a ProviderError carrying the
code of the last provider failure, or unknown when no providers were
configured. -/
theorem manager_exhaustion (cached : Option CacheEntry) (providers : List Provider)
    (hfail : ∀ q ∈ providers, providerFails q = true) :
    (∀ entry, cached = some entry → entry.fresh = false →
      fetchWithFallback cached providers =
        ⟨Except.ok entry.points, providers.map Provider.name, none⟩) ∧
    (cached = none →
      fetchWithFallback cached providers =
        ⟨Except.error ⟨lastFailCode providers, "All providers failed"⟩,
         providers.map Provider.name, none⟩) := by
  have hcode : lastFailCode providers = exhaustedCode providers none := by
    rw [exhaustedCode_eq_lastFailCode providers none]
    unfold lastFailCode
    cases providers.getLast? <;> rfl
  constructor
  · rintro entry rfl hf
    show (if entry.fresh = true then
        FetchOutcome.mk (Except.ok entry.points) [] none
      else tryProviders (some entry) providers none) = _
    rw [hf]
    simp only [Bool.false_eq_true, if_false]
    rw [tryProviders_all_fail (some entry) providers none hfail]
  · rintro rfl
    show tryProviders none providers none = _
    rw [tryProviders_all_fail none providers none hfail, hcode]

/-- C3 witness: with chain [timeout-provider, empty-provider], a stale
cache entry is served after both providers are invoked; with no cache
entry the raised error carries the code empty of the last failure. -/
theorem manager_exhaustion_witness :
    fetchWithFallback (some ⟨[witnessPoint], false⟩) [provErr, provEmpty] =
      ⟨Except.ok [witnessPoint], ["stormglass", "open-meteo"], none⟩ ∧
    fetchWithFallback none [provErr, provEmpty] =
      ⟨Except.error ⟨"empty", "All providers failed"⟩,
       ["stormglass", "open-meteo"], none⟩ :=
  ⟨(manager_exhaustion (some ⟨[witnessPoint], false⟩) [provErr, provEmpty] (by decide)).1
      ⟨[witnessPoint], false⟩ rfl rfl,
   (manager_exhaustion none [provErr, provEmpty] (by decide)).2 rfl⟩

/-! ## Claim C7: cache load freshness tiers -/

/-- C7: for a cache whose freshness TTL does not exceed its stale TTL,
load returns the stored points marked fresh when the age is at most the
TTL, returns them marked not fresh when the age is greater than the TTL
but at most the stale TTL, and returns nothing when the age exceeds the
stale TTL or no entry was ever written. -/
theorem cache_load_tiers (entry : Option (ℤ × List ForecastPoint))
    (now ttl staleTtl : ℤ) (hts : ttl ≤ staleTtl) :
    (∀ written pts, entry = some (written, pts) → now - written ≤ ttl →
      cacheLoad entry now ttl staleTtl = some ⟨pts, true⟩) ∧
    (∀ written pts, entry = some (written, pts) → ttl < now - written →
      now - written ≤ staleTtl →
      cacheLoad entry now ttl staleTtl = some ⟨pts, false⟩) ∧
    (∀ written pts, entry = some (written, pts) → staleTtl < now - written →
      cacheLoad entry now ttl staleTtl = none) ∧
    (entry = none → cacheLoad entry now ttl staleTtl = none) := by
  refine ⟨?_, ?_, ?_, ?_⟩
  · rintro written pts rfl hage
    show (if now - written > staleTtl then (none : Option CacheEntry)
      else some (CacheEntry.mk pts (decide (now - written ≤ ttl)))) = _
    rw [if_neg (by omega), decide_eq_true hage]
  · rintro written pts rfl hage1 hage2
    show (if now - written > staleTtl then (none : Option CacheEntry)
      else some (CacheEntry.mk pts (decide (now - written ≤ ttl)))) = _
    rw [if_neg (by omega), decide_eq_false (by omega)]
  · rintro written pts rfl hage
    show (if now - written > staleTtl then (none : Option CacheEntry)
      else some (CacheEntry.mk pts (decide (now - written ≤ ttl)))) = _
    rw [if_pos (by omega)]
  · rintro rfl
    rfl

/-- C7 witness: with TTL 1800 and stale TTL 10800, an entry written at
time 0 is fresh at age 100, stale at age 2000, absent at age 20000, and a
missing entry is a miss. -/
theorem cache_load_tiers_witness :
    cacheLoad (some (0, [witnessPoint])) 100 1800 10800 = some ⟨[witnessPoint], true⟩ ∧
    cacheLoad (some (0, [witnessPoint])) 2000 1800 10800 = some ⟨[witnessPoint], false⟩ ∧
    cacheLoad (some (0, [witnessPoint])) 20000 1800 10800 = none ∧
    cacheLoad none 0 1800 10800 = none :=
  ⟨(cache_load_tiers (some (0, [witnessPoint])) 100 1800 10800 (by omega)).1
      0 [witnessPoint] rfl (by omega),
   (cache_load_tiers (some (0, [witnessPoint])) 2000 1800 10800 (by omega)).2.1
      0 [witnessPoint] rfl (by omega) (by omega),
   (cache_load_tiers (some (0, [witnessPoint])) 20000 1800 10800 (by omega)).2.2.1
      0 [witnessPoint] rfl (by omega),
   (cache_load_tiers none 0 1800 10800 (by omega)).2.2.2 rfl⟩

/-! ## Claim C10: cache key digest quantization -/

/-- C10 counterexample: two keys with equal provider and hours whose
latitudes agree after rounding to 4 decimals (both round to 0) but whose
digest inputs differ, because Python formats a tiny negative latitude as
-0.0000 while a tiny positive one formats as 0.0000. -/
theorem cache_digest_rounding_cex :
    round4 |(CacheKey.mk "multi" (1/100000) 0 24).lat| =
      round4 |(CacheKey.mk "multi" (-1/100000) 0 24).lat| ∧
    round4 (CacheKey.mk "multi" (1/100000) 0 24).lat =
      round4 (CacheKey.mk "multi" (-1/100000) 0 24).lat ∧
    digestInput (CacheKey.mk "multi" (1/100000) 0 24) ≠
      digestInput (CacheKey.mk "multi" (-1/100000) 0 24) := by
  have h1 : round4 ((1:ℚ)/100000) = ((0:ℤ):ℚ)/10000 :=
    round4_eq _ 0 (by norm_num) (by norm_num)
  have h2 : round4 ((-1:ℚ)/100000) = ((0:ℤ):ℚ)/10000 :=
    round4_eq _ 0 (by norm_num) (by norm_num)
  refine ⟨?_, ?_, ?_⟩
  · show round4 |(1:ℚ)/100000| = round4 |(-1:ℚ)/100000|
    rw [show |(1:ℚ)/100000| = 1/100000 by rw [abs_div, abs_one]; norm_num,
      show |(-1:ℚ)/100000| = 1/100000 by rw [abs_div, abs_neg, abs_one]; norm_num]
  · show round4 ((1:ℚ)/100000) = round4 ((-1:ℚ)/100000)
    rw [h1, h2]
  · intro h
    have hsign := congrArg (fun t => t.2.1.1) h
    simp only [digestInput, fmt4] at hsign
    rw [decide_eq_false (by norm_num : ¬ ((1:ℚ)/100000 < 0)),
      decide_eq_true (by norm_num : ((-1:ℚ)/100000 < 0))] at hsign
    exact Bool.false_ne_true hsign

/-- C10 amended: the digest input is the tuple (provider, formatted lat,
formatted lon, hours) where formatting to 4 decimals is the sign together
with the rounded absolute value; two keys with equal provider and hours
whose coordinates agree after rounding to 4 decimals in absolute value and
agree in sign produce the same digest input, hence the same sha256 digest
and the same cache file, and the digest input depends on nothing else. -/
theorem cache_digest_quantization_amended (k1 k2 : CacheKey)
    (hp : k1.provider = k2.provider) (hh : k1.hours = k2.hours)
    (hlat : round4 |k1.lat| = round4 |k2.lat|)
    (hlats : decide (k1.lat < 0) = decide (k2.lat < 0))
    (hlon : round4 |k1.lon| = round4 |k2.lon|)
    (hlons : decide (k1.lon < 0) = decide (k2.lon < 0)) :
    digestInput k1 = digestInput k2 := by
  unfold digestInput fmt4
  rw [hp, hh, hlat, hlon, hlats, hlons]

/-- C10 amended witness: 25.00001 and 25.000009 with equal longitudes
share a digest input. -/
theorem cache_digest_quantization_amended_witness :
    digestInput (CacheKey.mk "multi" (2500001/100000) 55 24) =
      digestInput (CacheKey.mk "multi" (25000009/1000000) 55 24) :=
  cache_digest_quantization_amended _ _ rfl rfl
    (by
      show round4 |(2500001:ℚ)/100000| = round4 |(25000009:ℚ)/1000000|
      rw [abs_of_pos (by norm_num : (0:ℚ) < 2500001/100000),
        abs_of_pos (by norm_num : (0:ℚ) < 25000009/1000000),
        round4_eq _ 250000 (by norm_num) (by norm_num),
        round4_eq _ 250000 (by norm_num) (by norm_num)])
    (decide_eq_decide.mpr (by norm_num))
    rfl
    rfl

/-! ## Claim C8: bias correction identity when disabled -/

/-- C8: for every timeseries and every background mapping,
apply_bias_correction with enabled false returns the input series itself:
the early return fires before any statistics are computed, so every point,
measurement value, quality flag and metadata field, including
bias_corrected, is exactly that of the input. -/
theorem bias_disabled_identity (ts : MarineTimeseries)
    (background : MarineVariable → List ℚ) :
    applyBiasCorrection ts background false = ts := rfl

/-! ## Claim C5: ERI score boundedness -/

theorem eriStep_fst_le (ruleSet : ERIRuleSet) (point : MarineDataPoint)
    (hc : 0 ≤ ruleSet.cautionPenalty) (hd : 0 ≤ ruleSet.dangerPenalty)
    (rule : ThresholdRule) (hw : 0 ≤ rule.weight) (acc : ℚ × Bool) :
    acc.1 ≤ (eriStep ruleSet point acc rule).1 := by
  unfold eriStep
  cases findMeasurement point rule.var with
  | none =>
    have : 0 ≤ rule.weight * ruleSet.cautionPenalty := mul_nonneg hw hc
    dsimp only
    linarith
  | some m =>
    have h1 : 0 ≤ rule.weight * ruleSet.cautionPenalty := mul_nonneg hw hc
    have h2 : 0 ≤ rule.weight * ruleSet.dangerPenalty := mul_nonneg hw hd
    dsimp only
    split
    · dsimp only
      linarith
    · split
      · dsimp only
        linarith
      · linarith

theorem eriPenalty_loop_le (ruleSet : ERIRuleSet) (point : MarineDataPoint)
    (hc : 0 ≤ ruleSet.cautionPenalty) (hd : 0 ≤ ruleSet.dangerPenalty) :
    ∀ (rules : List ThresholdRule), (∀ r ∈ rules, 0 ≤ r.weight) →
      ∀ acc : ℚ × Bool, acc.1 ≤ (rules.foldl (eriStep ruleSet point) acc).1 := by
  intro rules
  induction rules with
  | nil => intro _ acc; exact le_refl _
  | cons r rest ih =>
    intro hw acc
    have h1 := eriStep_fst_le ruleSet point hc hd r (hw r (List.mem_cons_self r rest)) acc
    have h2 := ih (fun s hs => hw s (List.mem_cons_of_mem r hs)) (eriStep ruleSet point acc r)
    calc acc.1 ≤ (eriStep ruleSet point acc r).1 := h1
      _ ≤ _ := h2

/-- C5 counterexample: a rule set with a negative rule weight, which the
ThresholdRule type admits, makes the accumulated penalty negative on a
point missing that variable, so the score 110 exceeds base_score 100. -/
theorem eri_bounds_cex :
    (computeEriTimeseries eriCexTs eriCexRules).map ERIPoint.score = [110] ∧
    ¬ ((110 : ℚ) ≤ eriCexRules.baseScore) := by
  constructor
  · show [round2 (max 0 (eriCexRules.baseScore - (eriPenalty eriCexRules eriCexPoint).1))] = [110]
    rw [show (eriPenalty eriCexRules eriCexPoint).1 = 0 + (-1) * 10 from rfl]
    rw [show eriCexRules.baseScore = 100 from rfl]
    rw [show max (0:ℚ) (100 - (0 + (-1) * 10)) = 110 by rw [max_def]; norm_num]
    rw [round2_eq _ 11000 (by norm_num) (by norm_num)]
    norm_num
  · rw [show eriCexRules.baseScore = 100 from rfl]
    norm_num

/-- C5 amended: when every rule weight is non-negative, both penalties are
non-negative, and base_score is a non-negative multiple of 0.01 (so
2-decimal rounding cannot overshoot it), every ERI point score satisfies
0 <= score <= base_score; the lower bound 0 <= score holds for these rule
sets because the score is the rounding of max(0, base - penalty). -/
theorem eri_score_bounds_amended (ts : MarineTimeseries) (ruleSet : ERIRuleSet)
    (hw : ∀ r ∈ ruleSet.rules, 0 ≤ r.weight)
    (hc : 0 ≤ ruleSet.cautionPenalty) (hd : 0 ≤ ruleSet.dangerPenalty)
    (hb : 0 ≤ ruleSet.baseScore) (hb100 : (ruleSet.baseScore * 100).den = 1) :
    ∀ pt ∈ computeEriTimeseries ts ruleSet,
      0 ≤ pt.score ∧ pt.score ≤ ruleSet.baseScore := by
  intro pt hpt
  unfold computeEriTimeseries at hpt
  obtain ⟨p, _, rfl⟩ := List.mem_map.mp hpt
  have hpen : (0:ℚ) ≤ (eriPenalty ruleSet p).1 :=
    eriPenalty_loop_le ruleSet p hc hd ruleSet.rules hw (0, false)
  constructor
  · exact round2_nonneg _ (le_max_left 0 _)
  · exact round2_le_of_le _ _ (max_le hb (by linarith)) hb100

/-- C5 amended witness: the amended bounds discharged on the concrete ERI
point computed from a rule set with a dangerous measurement. -/
theorem eri_score_bounds_amended_witness :
    0 ≤ eriWitnessPoint.score ∧ eriWitnessPoint.score ≤ eriWitnessRules.baseScore :=
  eri_score_bounds_amended eriWitnessTs eriWitnessRules
    (by
      intro r hr
      rcases List.mem_singleton.mp hr with rfl
      norm_num)
    (by norm_num [eriWitnessRules])
    (by norm_num [eriWitnessRules])
    (by norm_num [eriWitnessRules])
    (by
      rw [show eriWitnessRules.baseScore = 100 from rfl,
        show (100:ℚ) * 100 = 10000 by norm_num]
      rfl)
    eriWitnessPoint
    (by
      rw [show computeEriTimeseries eriWitnessTs eriWitnessRules = [eriWitnessPoint] from rfl]
      exact List.mem_singleton.mpr rfl)

/-! ## Claim C4: quality-control idempotence -/

theorem clipValue_none_none (x : ℚ) : clipValue x none none = x := rfl

theorem clipValue_none_some (x hi : ℚ) :
    clipValue x none (some hi) = if x > hi then hi else x := rfl

theorem clipValue_some_none (x lo : ℚ) :
    clipValue x (some lo) none = if x < lo then lo else x := rfl

theorem clipValue_some_some (x lo hi : ℚ) :
    clipValue x (some lo) (some hi) =
      if x < lo then lo else if x > hi then hi else x := rfl

theorem clipValue_idem (x : ℚ) (mi ma : Option ℚ)
    (h : ∀ lo hi, mi = some lo → ma = some hi → lo ≤ hi) :
    clipValue (clipValue x mi ma) mi ma = clipValue x mi ma := by
  cases mi with
  | none =>
    cases ma with
    | none => rfl
    | some hi =>
      simp only [clipValue_none_some]
      split_ifs <;> linarith
  | some lo =>
    cases ma with
    | none =>
      simp only [clipValue_some_none]
      split_ifs <;> linarith
    | some hi =>
      have hlohi : lo ≤ hi := h lo hi rfl rfl
      simp only [clipValue_some_some]
      split_ifs <;> linarith

theorem computeIqrBounds_small (values : List ℚ) (k : ℚ) (h : values.length < 4) :
    computeIqrBounds values k = (none, none) := by
  unfold computeIqrBounds
  rw [if_pos h]

theorem qcMeasurement_small (ts : MarineTimeseries)
    (pb : MarineVariable → Option ℚ × Option ℚ) (k : ℚ) (m : MarineMeasurement)
    (h : (collectValues ts m.var).length < 4) :
    qcMeasurement ts pb k m =
      ⟨m.var, clipValue m.value (pb m.var).1 (pb m.var).2, m.unit,
        if round2 (clipValue m.value (pb m.var).1 (pb m.var).2) ≠ round2 m.value then
          QualityFlag.clipped
        else m.qualityFlag⟩ := by
  unfold qcMeasurement
  rw [computeIqrBounds_small _ _ h]
  rfl

theorem collectValues_applyQC_length (ts : MarineTimeseries)
    (pb : MarineVariable → Option ℚ × Option ℚ) (k : ℚ) (v : MarineVariable) :
    (collectValues (applyQualityControls ts pb k) v).length =
      (collectValues ts v).length := by
  unfold collectValues applyQualityControls
  dsimp only
  rw [List.map_map]
  have hcomp :
      (MarineDataPoint.measurements ∘ fun p : MarineDataPoint =>
        MarineDataPoint.mk p.timestamp p.position
          (p.measurements.map (qcMeasurement ts pb k)) p.metadata) =
      fun p : MarineDataPoint => p.measurements.map (qcMeasurement ts pb k) := rfl
  rw [hcomp]
  have hmapmap : (ts.points.map fun p : MarineDataPoint =>
      p.measurements.map (qcMeasurement ts pb k)) =
      (ts.points.map MarineDataPoint.measurements).map (List.map (qcMeasurement ts pb k)) := by
    rw [List.map_map]
    rfl
  rw [hmapmap, ← List.map_flatten, List.filter_map]
  have hfil : ((fun mm : MarineMeasurement => decide (mm.var = v)) ∘
      qcMeasurement ts pb k) = fun mm : MarineMeasurement => decide (mm.var = v) := rfl
  rw [hfil]
  simp only [List.length_map]

theorem qcMeasurement_idem (ts ts2 : MarineTimeseries)
    (pb : MarineVariable → Option ℚ × Option ℚ) (k : ℚ) (m : MarineMeasurement)
    (h1 : (collectValues ts m.var).length < 4)
    (h2 : (collectValues ts2 m.var).length < 4)
    (hpb : ∀ v lo hi, pb v = (some lo, some hi) → lo ≤ hi) :
    qcMeasurement ts2 pb k (qcMeasurement ts pb k m) = qcMeasurement ts pb k m := by
  rw [qcMeasurement_small ts pb k m h1]
  rw [qcMeasurement_small ts2 pb k
    ⟨m.var, clipValue m.value (pb m.var).1 (pb m.var).2, m.unit,
      if round2 (clipValue m.value (pb m.var).1 (pb m.var).2) ≠ round2 m.value then
        QualityFlag.clipped
      else m.qualityFlag⟩ h2]
  have hc : clipValue (clipValue m.value (pb m.var).1 (pb m.var).2)
      (pb m.var).1 (pb m.var).2 = clipValue m.value (pb m.var).1 (pb m.var).2 := by
    apply clipValue_idem
    intro lo hi hlo hhi
    apply hpb m.var lo hi
    rw [← hlo, ← hhi]
  dsimp only
  rw [hc]
  simp

theorem qcCex_collect_one :
    collectValues qcCexTs MarineVariable.significantWaveHeight = [0, 0, 0, 16] := rfl

theorem qcCex_sort_one : sortRat [0, 0, 0, (16:ℚ)] = [0, 0, 0, 16] := by
  norm_num [sortRat, insertSorted]

theorem qcCex_q1_one : quartileInclusive [0, 0, 0, (16:ℚ)] 1 = 0 := by
  norm_num [quartileInclusive, List.getD_cons_zero, List.getD_cons_succ]

theorem qcCex_q3_one : quartileInclusive [0, 0, 0, (16:ℚ)] 3 = 4 := by
  norm_num [quartileInclusive, List.getD_cons_zero, List.getD_cons_succ]

theorem qcCex_bounds_one :
    computeIqrBounds [0, 0, 0, (16:ℚ)] (3/2) = (some (-6), some 10) := by
  unfold computeIqrBounds
  rw [if_neg (by norm_num), qcCex_sort_one, qcCex_q1_one, qcCex_q3_one]
  norm_num

theorem qcCex_meas_zero_one : qcMeasurement qcCexTs qcCexBounds (3/2)
    ⟨MarineVariable.significantWaveHeight, 0, UnitEnum.meters, QualityFlag.raw⟩ =
    ⟨MarineVariable.significantWaveHeight, 0, UnitEnum.meters, QualityFlag.raw⟩ := by
  unfold qcMeasurement
  dsimp only [qcCexBounds]
  rw [qcCex_collect_one, qcCex_bounds_one]
  dsimp only
  rw [clipValue_none_none, clipValue_some_some]
  rw [if_neg (by norm_num), if_neg (by norm_num)]
  simp

theorem qcCex_meas_outlier_one : qcMeasurement qcCexTs qcCexBounds (3/2)
    ⟨MarineVariable.significantWaveHeight, 16, UnitEnum.meters, QualityFlag.raw⟩ =
    ⟨MarineVariable.significantWaveHeight, 10, UnitEnum.meters, QualityFlag.clipped⟩ := by
  unfold qcMeasurement
  dsimp only [qcCexBounds]
  rw [qcCex_collect_one, qcCex_bounds_one]
  dsimp only
  rw [clipValue_none_none, clipValue_some_some]
  rw [if_neg (by norm_num), if_pos (by norm_num)]
  rw [if_pos]
  rw [round2_eq 10 1000 (by norm_num) (by norm_num),
    round2_eq 16 1600 (by norm_num) (by norm_num)]
  norm_num

theorem qcCex_pass_one : applyQualityControls qcCexTs qcCexBounds (3/2) = qcCexOnce := by
  unfold applyQualityControls
  rw [show qcCexTs.points =
    [⟨0, ⟨25, 55⟩, [⟨MarineVariable.significantWaveHeight, 0, UnitEnum.meters,
        QualityFlag.raw⟩], fixtureMetadata⟩,
      ⟨1, ⟨25, 55⟩, [⟨MarineVariable.significantWaveHeight, 0, UnitEnum.meters,
        QualityFlag.raw⟩], fixtureMetadata⟩,
      ⟨2, ⟨25, 55⟩, [⟨MarineVariable.significantWaveHeight, 0, UnitEnum.meters,
        QualityFlag.raw⟩], fixtureMetadata⟩,
      ⟨3, ⟨25, 55⟩, [⟨MarineVariable.significantWaveHeight, 16, UnitEnum.meters,
        QualityFlag.raw⟩], fixtureMetadata⟩] from rfl]
  simp only [List.map_cons, List.map_nil]
  rw [qcCex_meas_zero_one, qcCex_meas_outlier_one]
  rfl

theorem qcCex_collect_two :
    collectValues qcCexOnce MarineVariable.significantWaveHeight = [0, 0, 0, 10] := rfl

theorem qcCex_sort_two : sortRat [0, 0, 0, (10:ℚ)] = [0, 0, 0, 10] := by
  norm_num [sortRat, insertSorted]

theorem qcCex_q1_two : quartileInclusive [0, 0, 0, (10:ℚ)] 1 = 0 := by
  norm_num [quartileInclusive, List.getD_cons_zero, List.getD_cons_succ]

theorem qcCex_q3_two : quartileInclusive [0, 0, 0, (10:ℚ)] 3 = 5/2 := by
  norm_num [quartileInclusive, List.getD_cons_zero, List.getD_cons_succ]

theorem qcCex_bounds_two :
    computeIqrBounds [0, 0, 0, (10:ℚ)] (3/2) = (some (-15/4), some (25/4)) := by
  unfold computeIqrBounds
  rw [if_neg (by norm_num), qcCex_sort_two, qcCex_q1_two, qcCex_q3_two]
  norm_num

theorem qcCex_meas_zero_two : qcMeasurement qcCexOnce qcCexBounds (3/2)
    ⟨MarineVariable.significantWaveHeight, 0, UnitEnum.meters, QualityFlag.raw⟩ =
    ⟨MarineVariable.significantWaveHeight, 0, UnitEnum.meters, QualityFlag.raw⟩ := by
  unfold qcMeasurement
  dsimp only [qcCexBounds]
  rw [qcCex_collect_two, qcCex_bounds_two]
  dsimp only
  rw [clipValue_none_none, clipValue_some_some]
  rw [if_neg (by norm_num), if_neg (by norm_num)]
  simp

theorem qcCex_meas_outlier_two : qcMeasurement qcCexOnce qcCexBounds (3/2)
    ⟨MarineVariable.significantWaveHeight, 10, UnitEnum.meters, QualityFlag.clipped⟩ =
    ⟨MarineVariable.significantWaveHeight, 25/4, UnitEnum.meters, QualityFlag.clipped⟩ := by
  unfold qcMeasurement
  dsimp only [qcCexBounds]
  rw [qcCex_collect_two, qcCex_bounds_two]
  dsimp only
  rw [clipValue_none_none, clipValue_some_some]
  rw [if_neg (by norm_num), if_pos (by norm_num)]
  rw [if_pos]
  rw [round2_eq (25/4) 625 (by norm_num) (by norm_num),
    round2_eq 10 1000 (by norm_num) (by norm_num)]
  norm_num

theorem qcCex_pass_two : applyQualityControls qcCexOnce qcCexBounds (3/2) = qcCexTwice := by
  unfold applyQualityControls
  rw [show qcCexOnce.points =
    [⟨0, ⟨25, 55⟩, [⟨MarineVariable.significantWaveHeight, 0, UnitEnum.meters,
        QualityFlag.raw⟩], fixtureMetadata⟩,
      ⟨1, ⟨25, 55⟩, [⟨MarineVariable.significantWaveHeight, 0, UnitEnum.meters,
        QualityFlag.raw⟩], fixtureMetadata⟩,
      ⟨2, ⟨25, 55⟩, [⟨MarineVariable.significantWaveHeight, 0, UnitEnum.meters,
        QualityFlag.raw⟩], fixtureMetadata⟩,
      ⟨3, ⟨25, 55⟩, [⟨MarineVariable.significantWaveHeight, 10, UnitEnum.meters,
        QualityFlag.clipped⟩], fixtureMetadata⟩] from rfl]
  simp only [List.map_cons, List.map_nil]
  rw [qcCex_meas_zero_two, qcCex_meas_outlier_two]
  rfl

/-- C4 counterexample: on four samples 0, 0, 0, 16 with no physical bounds
and multiplier 1.5, the first pass clips the outlier to the IQR upper
bound 10, and the second pass, whose IQR bounds are recomputed from the
once-clipped values, clips it further to 6.25, so applying quality control
twice differs from applying it once. -/
theorem qc_idempotence_cex :
    applyQualityControls (applyQualityControls qcCexTs qcCexBounds (3/2)) qcCexBounds (3/2) ≠
      applyQualityControls qcCexTs qcCexBounds (3/2) := by
  rw [qcCex_pass_one, qcCex_pass_two]
  intro h
  have hv := congrArg
    (fun s => s.points.map (fun p => p.measurements.map MarineMeasurement.value)) h
  simp only [qcCexTwice, qcCexOnce, List.map_cons, List.map_nil, List.cons.injEq,
    and_true, true_and] at hv
  norm_num at hv

/-- C4 amended: apply_quality_controls is idempotent on series where every
variable has fewer than 4 samples (so the IQR bounds stay unbounded) and
the physical-bounds mapping is consistent (lower bound at most upper bound
whenever both are given).  In general a second application clips further,
because the IQR bounds recomputed from once-clipped values shrink; with an
inconsistent bound pair lo > hi the physical clip itself oscillates. -/
theorem qc_idempotent_small_samples (ts : MarineTimeseries)
    (pb : MarineVariable → Option ℚ × Option ℚ) (k : ℚ)
    (h4 : ∀ v, (collectValues ts v).length < 4)
    (hpb : ∀ v lo hi, pb v = (some lo, some hi) → lo ≤ hi) :
    applyQualityControls (applyQualityControls ts pb k) pb k =
      applyQualityControls ts pb k := by
  have h4b : ∀ v, (collectValues (applyQualityControls ts pb k) v).length < 4 := by
    intro v
    rw [collectValues_applyQC_length]
    exact h4 v
  conv_lhs => rw [applyQualityControls]
  conv_rhs => rw [applyQualityControls]
  congr 1
  have hpoints : (applyQualityControls ts pb k).points =
      ts.points.map (fun p : MarineDataPoint =>
        MarineDataPoint.mk p.timestamp p.position
          (p.measurements.map (qcMeasurement ts pb k)) p.metadata) := rfl
  rw [hpoints, List.map_map]
  apply List.map_congr_left
  intro p _
  dsimp only [Function.comp]
  congr 1
  rw [List.map_map]
  apply List.map_congr_left
  intro m _
  dsimp only [Function.comp]
  exact qcMeasurement_idem ts (applyQualityControls ts pb k) pb k m (h4 m.var)
    (h4b m.var) hpb

/-- C4 amended witness: the amended idempotence discharged on the
two-sample fixture with physical bounds [0, 4]. -/
theorem qc_idempotent_small_samples_witness :
    applyQualityControls (applyQualityControls qcWitnessTs qcWitnessBounds (3/2))
        qcWitnessBounds (3/2) =
      applyQualityControls qcWitnessTs qcWitnessBounds (3/2) :=
  qc_idempotent_small_samples qcWitnessTs qcWitnessBounds (3/2)
    (by intro v; cases v <;> decide)
    (by
      intro v lo hi h
      have h1 : some (0:ℚ) = some lo := congrArg Prod.fst h
      have h2 : some (4:ℚ) = some hi := congrArg Prod.snd h
      rw [← Option.some_inj.mp h1, ← Option.some_inj.mp h2]
      norm_num)

/-! ## Claim C6: ensemble weight normalization and convexity -/

theorem list_sum_nonpos (l : List ℚ) (h : ∀ x ∈ l, x ≤ 0) : l.sum ≤ 0 := by
  induction l with
  | nil => simp
  | cons x xs ih =>
    simp only [List.sum_cons]
    have hx := h x (List.mem_cons_self x xs)
    have := ih (fun y hy => h y (List.mem_cons_of_mem x hy))
    linarith

theorem list_sum_map_div (l : List ℚ) (c : ℚ) :
    (l.map (fun x => x / c)).sum = l.sum / c := by
  induction l with
  | nil => simp
  | cons x xs ih => simp [List.sum_cons, ih, add_div]

theorem sum_round4_close (l : List ℚ) :
    |(l.map round4).sum - l.sum| ≤ (l.length : ℚ) * (1/20000) := by
  induction l with
  | nil => simp
  | cons x xs ih =>
    simp only [List.map_cons, List.sum_cons, List.length_cons]
    have hx := abs_round4_sub_le x
    calc |round4 x + (xs.map round4).sum - (x + xs.sum)|
        = |(round4 x - x) + ((xs.map round4).sum - xs.sum)| := by ring_nf
      _ ≤ |round4 x - x| + |(xs.map round4).sum - xs.sum| := abs_add _ _
      _ ≤ 1/20000 + (xs.length : ℚ) * (1/20000) := add_le_add hx ih
      _ = ((xs.length : ℚ) + 1) * (1/20000) := by ring
      _ = (((xs.length + 1 : ℕ)) : ℚ) * (1/20000) := by push_cast; ring

theorem exists_le_weightedAvg {α : Type} (l : List α) (val w : α → ℚ)
    (hw : ∀ a ∈ l, 0 ≤ w a) (hpos : 0 < (l.map w).sum) :
    ∃ a ∈ l, val a ≤ (l.map (fun a => val a * w a)).sum / (l.map w).sum := by
  by_contra hc
  push_neg at hc
  have hex : ∃ a ∈ l, 0 < w a := by
    by_contra hz
    push_neg at hz
    have : (l.map w).sum ≤ 0 := by
      apply list_sum_nonpos
      intro x hx
      obtain ⟨a, ha, rfl⟩ := List.mem_map.mp hx
      exact hz a ha
    linarith
  obtain ⟨a0, ha0, hw0⟩ := hex
  have hlt : (l.map fun a => ((l.map fun a => val a * w a).sum / (l.map w).sum) * w a).sum <
      (l.map fun a => val a * w a).sum := by
    have := List.sum_lt_sum
      (fun a => ((l.map fun a => val a * w a).sum / (l.map w).sum) * w a)
      (fun a => val a * w a)
      (fun i hi => mul_le_mul_of_nonneg_right (le_of_lt (hc i hi)) (hw i hi))
      ⟨a0, ha0, mul_lt_mul_of_pos_right (hc a0 ha0) hw0⟩
    exact this
  rw [List.sum_map_mul_left] at hlt
  rw [div_mul_cancel₀ _ (ne_of_gt hpos)] at hlt
  exact lt_irrefl _ hlt

theorem list_sum_map_neg_mul {α : Type} (l : List α) (f w : α → ℚ) :
    (l.map fun a => -(f a) * w a).sum = -((l.map fun a => f a * w a).sum) := by
  induction l with
  | nil => simp
  | cons x xs ih =>
    simp only [List.map_cons, List.sum_cons, ih]
    ring

theorem exists_ge_weightedAvg {α : Type} (l : List α) (val w : α → ℚ)
    (hw : ∀ a ∈ l, 0 ≤ w a) (hpos : 0 < (l.map w).sum) :
    ∃ a ∈ l, (l.map (fun a => val a * w a)).sum / (l.map w).sum ≤ val a := by
  obtain ⟨a, ha, hle⟩ := exists_le_weightedAvg l (fun a => -(val a)) w hw hpos
  refine ⟨a, ha, ?_⟩
  rw [list_sum_map_neg_mul, neg_div] at hle
  linarith

theorem ensembleTotal_pos (ws : List (String × ℚ)) (hnn : ∀ p ∈ ws, 0 ≤ p.2)
    (hne : ensembleTotal ws ≠ 0) : 0 < ensembleTotal ws := by
  have h0 : 0 ≤ ensembleTotal ws := by
    apply List.sum_nonneg
    intro x hx
    obtain ⟨p, hp, rfl⟩ := List.mem_map.mp hx
    exact hnn p hp
  rcases lt_or_eq_of_le h0 with h | h
  · exact h
  · exact absurd h.symm hne

theorem contrib_weight_nonneg (seriesList : List MarineTimeseries) (ws : List (String × ℚ))
    (hnn : ∀ p ∈ ws, 0 ≤ p.2) (htot : 0 < ensembleTotal ws) (t : ℤ) (v : MarineVariable) :
    ∀ c ∈ contribsFor seriesList (normalizedList ws) t v, 0 ≤ c.2 := by
  intro c hc
  unfold contribsFor at hc
  obtain ⟨inner, hinner, hcin⟩ := List.mem_flatten.mp hc
  obtain ⟨p, hp, rfl⟩ := List.mem_map.mp hinner
  obtain ⟨m, hm, rfl⟩ := List.mem_map.mp hcin
  dsimp only
  rcases hfind : lookupWeight (normalizedList ws) p.metadata.source with _ | wv
  · simp
  · simp only [Option.getD_some]
    unfold lookupWeight at hfind
    obtain ⟨pr, hpr, hpr2⟩ := Option.map_eq_some'.mp hfind
    have hmem := List.mem_of_find?_eq_some hpr
    unfold normalizedList at hmem
    obtain ⟨q, hq, rfl⟩ := List.mem_map.mp hmem
    rw [← hpr2]
    exact round4_nonneg _ (div_nonneg (hnn q hq) (le_of_lt htot))

theorem weightedEnsemble_value_bounds (seriesList : List MarineTimeseries)
    (ws : List (String × ℚ)) (hnn : ∀ p ∈ ws, 0 ≤ p.2) (hne : ensembleTotal ws ≠ 0)
    (out : MarineTimeseries) (hout : weightedEnsemble seriesList ws = some out) :
    ∀ pt ∈ out.points, ∀ m ∈ pt.measurements,
      (∃ c ∈ contribsFor seriesList (normalizedList ws) pt.timestamp m.var,
        c.1.value ≤ m.value) ∧
      (∃ c ∈ contribsFor seriesList (normalizedList ws) pt.timestamp m.var,
        m.value ≤ c.1.value) := by
  have htot := ensembleTotal_pos ws hnn hne
  intro pt hpt m hm
  unfold weightedEnsemble at hout
  rw [if_neg hne] at hout
  rw [← Option.some_inj.mp hout] at hpt
  obtain ⟨t, ht, hpt2⟩ := List.mem_filterMap.mp hpt
  unfold ensemblePointAt at hpt2
  obtain ⟨bp, hbp, hpteq⟩ := Option.map_eq_some'.mp hpt2
  have hbpt : bp.timestamp = t := by
    unfold basePointOf at hbp
    have h1 := List.find?_some hbp
    exact of_decide_eq_true h1
  have hptt : pt.timestamp = t := by
    rw [← hpteq]
    exact hbpt
  have hmm : m ∈ (groupVars seriesList (normalizedList ws) t).filterMap
      (ensembleMeasurement seriesList (normalizedList ws) t) := by
    rw [← hpteq] at hm
    exact hm
  obtain ⟨v, hv, hmv⟩ := List.mem_filterMap.mp hmm
  unfold ensembleMeasurement at hmv
  by_cases hws : ((contribsFor seriesList (normalizedList ws) t v).map Prod.snd).sum = 0
  · rw [if_pos hws] at hmv
    exact absurd hmv (by simp)
  · rw [if_neg hws] at hmv
    have hmeq := Option.some_inj.mp hmv
    have hvar : m.var = v := by
      rw [← hmeq]
    have hval : m.value =
        ((contribsFor seriesList (normalizedList ws) t v).map
          (fun c => c.1.value * c.2)).sum /
        ((contribsFor seriesList (normalizedList ws) t v).map Prod.snd).sum := by
      rw [← hmeq]
    have hwnn := contrib_weight_nonneg seriesList ws hnn htot t v
    have hwpos : 0 < ((contribsFor seriesList (normalizedList ws) t v).map Prod.snd).sum := by
      have h0 : 0 ≤ ((contribsFor seriesList (normalizedList ws) t v).map Prod.snd).sum := by
        apply List.sum_nonneg
        intro x hx
        obtain ⟨c, hc, rfl⟩ := List.mem_map.mp hx
        exact hwnn c hc
      rcases lt_or_eq_of_le h0 with h | h
      · exact h
      · exact absurd h.symm hws
    rw [hptt, hvar, hval]
    constructor
    · obtain ⟨c, hc, hle⟩ := exists_le_weightedAvg
        (contribsFor seriesList (normalizedList ws) t v) (fun c => c.1.value) Prod.snd hwnn hwpos
      exact ⟨c, hc, hle⟩
    · obtain ⟨c, hc, hle⟩ := exists_ge_weightedAvg
        (contribsFor seriesList (normalizedList ws) t v) (fun c => c.1.value) Prod.snd hwnn hwpos
      exact ⟨c, hc, hle⟩

theorem ensCex_total : ensembleTotal ensCexWeights = 1 := by
  norm_num [ensembleTotal, ensCexWeights]

theorem ensCex_norm : normalizedList ensCexWeights = [("a", -1), ("b", 2)] := by
  unfold normalizedList ensCexWeights
  rw [show ensembleTotal [("a", (-1:ℚ)), ("b", 2)] = 1 from ensCex_total]
  simp only [List.map_cons, List.map_nil]
  rw [round4_eq ((-1) / 1) (-10000) (by norm_num) (by norm_num),
    round4_eq (2 / 1) 20000 (by norm_num) (by norm_num)]
  norm_num

theorem ensCex_contribs :
    contribsFor [ensSeriesA, ensSeriesB] [("a", (-1:ℚ)), ("b", 2)] 0
      MarineVariable.significantWaveHeight =
    [(⟨MarineVariable.significantWaveHeight, 1, UnitEnum.meters, QualityFlag.raw⟩, -1),
     (⟨MarineVariable.significantWaveHeight, 2, UnitEnum.meters, QualityFlag.raw⟩, 2)] := rfl

theorem ensCex_meas :
    ensembleMeasurement [ensSeriesA, ensSeriesB] [("a", (-1:ℚ)), ("b", 2)] 0
      MarineVariable.significantWaveHeight =
    some ⟨MarineVariable.significantWaveHeight, 3, UnitEnum.meters, QualityFlag.raw⟩ := by
  unfold ensembleMeasurement
  rw [ensCex_contribs]
  rw [if_neg (by norm_num)]
  simp only [List.map_cons, List.map_nil, List.sum_cons, List.sum_nil, List.head?_cons,
    Option.map_some, Option.getD_some, List.any_cons, List.any_nil]
  norm_num
  rfl

theorem ensCex_point :
    ensemblePointAt [ensSeriesA, ensSeriesB] [("a", (-1:ℚ)), ("b", 2)] 0 =
    some ⟨0, ⟨25, 55⟩,
      [⟨MarineVariable.significantWaveHeight, 3, UnitEnum.meters, QualityFlag.raw⟩],
      ⟨"ensemble", none, [], false, some 1⟩⟩ := by
  unfold ensemblePointAt
  rw [show basePointOf [ensSeriesA, ensSeriesB] [("a", (-1:ℚ)), ("b", 2)] 0 =
    some ⟨0, ⟨25, 55⟩, [⟨MarineVariable.significantWaveHeight, 1, UnitEnum.meters,
      QualityFlag.raw⟩], ensMetaA⟩ from rfl]
  rw [show groupVars [ensSeriesA, ensSeriesB] [("a", (-1:ℚ)), ("b", 2)] 0 =
    [MarineVariable.significantWaveHeight] from rfl]
  simp only [Option.map_some, List.filterMap_cons, List.filterMap_nil, ensCex_meas]
  rfl

theorem ensCex_out :
    weightedEnsemble [ensSeriesA, ensSeriesB] ensCexWeights =
    some ⟨[⟨0, ⟨25, 55⟩,
      [⟨MarineVariable.significantWaveHeight, 3, UnitEnum.meters, QualityFlag.raw⟩],
      ⟨"ensemble", none, [], false, some 1⟩⟩]⟩ := by
  unfold weightedEnsemble
  rw [if_neg (by rw [ensCex_total]; norm_num), ensCex_norm]
  rw [show groupKeys [ensSeriesA, ensSeriesB] [("a", (-1:ℚ)), ("b", 2)] = [0] from rfl]
  simp only [List.filterMap_cons, List.filterMap_nil, ensCex_point]

/-- C6 counterexample: the weight mapping a -> -1, b -> 2 has non-zero sum
1, the contributing wave-height values at the shared timestamp are 1 and
2, yet the ensemble output value is 3, outside [min, max] = [1, 2]; so the
convexity part of the claim fails for weight mappings that are merely
non-zero-sum. -/
theorem ensemble_convexity_cex :
    ensembleTotal ensCexWeights ≠ 0 ∧
    (contribsFor [ensSeriesA, ensSeriesB] (normalizedList ensCexWeights) 0
        MarineVariable.significantWaveHeight).map (fun c => c.1.value) = [1, 2] ∧
    (weightedEnsemble [ensSeriesA, ensSeriesB] ensCexWeights).map
      (fun out => out.points.map (fun p => p.measurements.map MarineMeasurement.value)) =
      some [[3]] ∧
    ¬ ((3:ℚ) ≤ 2) := by
  refine ⟨by rw [ensCex_total]; norm_num, ?_, ?_, by norm_num⟩
  · rw [ensCex_norm, ensCex_contribs]
    rfl
  · rw [ensCex_out]
    rfl

/-- C6 amended: for every weight mapping with non-negative values and
non-zero (hence positive) sum, _normalize_weights succeeds, the normalized
weights sum to 1 within the 4-decimal rounding tolerance n/20000 (n the
number of entries), and every output measurement value of
weighted_ensemble lies between the minimum and maximum of the contributing
input values of its variable and timestamp group, with the weights
re-summed per variable. -/
theorem ensemble_normalization_convexity_amended (seriesList : List MarineTimeseries)
    (ws : List (String × ℚ)) (hnn : ∀ p ∈ ws, 0 ≤ p.2) (hne : ensembleTotal ws ≠ 0) :
    (normalizeWeights ws = some (normalizedList ws) ∧
      |((normalizedList ws).map Prod.snd).sum - 1| ≤ (ws.length : ℚ) * (1/20000)) ∧
    ∃ out, weightedEnsemble seriesList ws = some out ∧
      ∀ pt ∈ out.points, ∀ m ∈ pt.measurements,
        (∃ c ∈ contribsFor seriesList (normalizedList ws) pt.timestamp m.var,
          c.1.value ≤ m.value) ∧
        (∃ c ∈ contribsFor seriesList (normalizedList ws) pt.timestamp m.var,
          m.value ≤ c.1.value) := by
  refine ⟨⟨?_, ?_⟩, ?_⟩
  · unfold normalizeWeights
    rw [if_neg hne]
  · have hmap : (normalizedList ws).map Prod.snd =
        (ws.map (fun p => p.2 / ensembleTotal ws)).map round4 := by
      unfold normalizedList
      rw [List.map_map, List.map_map]
      rfl
    have hmap2 : (ws.map (fun p => p.2 / ensembleTotal ws)) =
        ((ws.map Prod.snd).map (fun x => x / ensembleTotal ws)) := by
      rw [List.map_map]
      rfl
    have hsum1 : (ws.map (fun p => p.2 / ensembleTotal ws)).sum = 1 := by
      rw [hmap2, list_sum_map_div]
      exact div_self hne
    have hclose := sum_round4_close (ws.map (fun p => p.2 / ensembleTotal ws))
    rw [hsum1] at hclose
    rw [hmap]
    calc |((ws.map fun p => p.2 / ensembleTotal ws).map round4).sum - 1|
        ≤ ((ws.map fun p => p.2 / ensembleTotal ws).length : ℚ) * (1/20000) := hclose
      _ = (ws.length : ℚ) * (1/20000) := by rw [List.length_map]
  · have hout : weightedEnsemble seriesList ws =
        some ⟨(groupKeys seriesList (normalizedList ws)).filterMap
          (ensemblePointAt seriesList (normalizedList ws))⟩ := by
      unfold weightedEnsemble
      rw [if_neg hne]
    exact ⟨_, hout, weightedEnsemble_value_bounds seriesList ws hnn hne _ hout⟩

/-- C6 amended witness: the amended statement discharged on the 0.7/0.3
weight mapping of the spec scenario with the two single-point series. -/
theorem ensemble_normalization_convexity_amended_witness :
    (normalizeWeights ensWitnessWeights = some (normalizedList ensWitnessWeights) ∧
      |((normalizedList ensWitnessWeights).map Prod.snd).sum - 1| ≤
        (ensWitnessWeights.length : ℚ) * (1/20000)) ∧
    ∃ out, weightedEnsemble [ensSeriesA, ensSeriesB] ensWitnessWeights = some out ∧
      ∀ pt ∈ out.points, ∀ m ∈ pt.measurements,
        (∃ c ∈ contribsFor [ensSeriesA, ensSeriesB] (normalizedList ensWitnessWeights)
          pt.timestamp m.var, c.1.value ≤ m.value) ∧
        (∃ c ∈ contribsFor [ensSeriesA, ensSeriesB] (normalizedList ensWitnessWeights)
          pt.timestamp m.var, m.value ≤ c.1.value) :=
  ensemble_normalization_convexity_amended [ensSeriesA, ensSeriesB] ensWitnessWeights
    (by
      intro p hp
      simp only [ensWitnessWeights, List.mem_cons, List.not_mem_nil, or_false] at hp
      rcases hp with rfl | rfl <;> norm_num)
    (by norm_num [ensembleTotal, ensWitnessWeights])

end WeatherVessel
